import Mathlib

/-!
Verification of the DDC/CI monitor-control library (libmonitor).

This file gives a shallow embedding, in Lean 4, of the parts of the
library that the specification's testable claims are about:

* the MCCS value model (`src/mccs/features/mod.rs`): feature codes,
  `NewControlValue`, `LuminanceValue`, `ContrastValue` and their
  conversions to and from the 32-bit wire word;
* the DDC/CI framing layer (`src/ddc/ci.rs`): `DdcOpcode`,
  `DdcCiMessage`, `compute_checksum`, `transmit_buffer`, `parse_buffer`
  and the 7-byte feature-reply parser;
* the EDID parser (`src/ddc/edid.rs`);
* the device facade (`src/ddc/mod.rs`): `read_capabilities` and
  `get_vcp_feature`, modelled over an abstract byte transport, and the
  change-notification iterator (`src/mccs/features/queue.rs`).

Machine integers are embedded as `Nat` with explicit `% 256` (u8) and
`% 65536` (u16) at the operations where Rust truncates or wraps.  Rust
`panic!` / `unimplemented!` / `todo!` sites are embedded as `Option`
results, `none` meaning the Rust code aborts.  Rust `String` payloads
inside error variants are dropped (the library never inspects them).
-/

/-! ## MCCS value model (`src/mccs/features/mod.rs`) -/

/-- VCP feature code (enum `VcpFeatureCode`).  `Unimplemented` carries the
raw byte. -/
inductive VcpFeatureCode where
  | CodePage
  | NewControlValue
  | Luminance
  | Contrast
  | ActiveControl
  | OsdLanguage
  | InputSelect
  | Unimplemented (b : Nat)
  | Unknown
deriving DecidableEq

/-- Conversion `impl From<VcpFeatureCode> for u8`. -/
def VcpFeatureCode.toU8 : VcpFeatureCode → Nat
  | .CodePage => 0x00
  | .NewControlValue => 0x02
  | .Luminance => 0x10
  | .Contrast => 0x12
  | .ActiveControl => 0x52
  | .InputSelect => 0x60
  | .OsdLanguage => 0xcc
  | .Unimplemented b => b
  | .Unknown => 0x00

/-- Conversion `impl From<u8> for VcpFeatureCode`. -/
def VcpFeatureCode.ofU8 (b : Nat) : VcpFeatureCode :=
  if b = 0x00 then .CodePage
  else if b = 0x02 then .NewControlValue
  else if b = 0x10 then .Luminance
  else if b = 0x12 then .Contrast
  else if b = 0x52 then .ActiveControl
  else if b = 0x60 then .InputSelect
  else if b = 0xcc then .OsdLanguage
  else .Unimplemented b

/-- Conversion `impl From<VcpFeatureCode> for u32`: narrows through u8. -/
def VcpFeatureCode.toU32 (v : VcpFeatureCode) : Nat := v.toU8

/-- Conversion `impl From<u32> for VcpFeatureCode`: keeps the low byte. -/
def VcpFeatureCode.ofU32 (w : Nat) : VcpFeatureCode := .ofU8 (w &&& 0xff)

/-- Enum `NewControlValue` (the 0x02 VCP feature's value). -/
inductive NewControlValue where
  | NewControlValuesPresent
  | Finished
deriving DecidableEq

/-- Conversion `impl From<u32> for NewControlValue`.  The Rust code
matches on `value & 0x0f` and panics on every other nibble; the panic is
embedded as `none`. -/
def NewControlValue.ofU32 (w : Nat) : Option NewControlValue :=
  if w &&& 0x0f = 0x01 then some .Finished
  else if w &&& 0x0f = 0x02 then some .NewControlValuesPresent
  else none

/-- Conversion `impl From<NewControlValue> for u32`. -/
def NewControlValue.toU32 : NewControlValue → Nat
  | .NewControlValuesPresent => 0x02
  | .Finished => 0x01

/-- Struct `LuminanceValue` (continuous VCP value: current and maximum). -/
structure LuminanceValue where
  max : Nat
  val : Nat
deriving DecidableEq

/-- Conversion `impl From<u32> for LuminanceValue`: `(value >> 16) as u16`
and `(value & 0xff) as u16`. -/
def LuminanceValue.ofU32 (w : Nat) : LuminanceValue :=
  { max := (w >>> 16) % 65536, val := (w &&& 0xff) % 65536 }

/-- Conversion `impl From<LuminanceValue> for u32`. -/
def LuminanceValue.toU32 (v : LuminanceValue) : Nat :=
  ((v.max % 65536) <<< 16) ||| (v.val % 65536)

/-- Struct `ContrastValue` (continuous VCP value: current and maximum). -/
structure ContrastValue where
  max : Nat
  val : Nat
deriving DecidableEq

/-- Conversion `impl From<u32> for ContrastValue`. -/
def ContrastValue.ofU32 (w : Nat) : ContrastValue :=
  { max := (w >>> 16) % 65536, val := (w &&& 0xff) % 65536 }

/-- Conversion `impl From<ContrastValue> for u32`. -/
def ContrastValue.toU32 (v : ContrastValue) : Nat :=
  ((v.max % 65536) <<< 16) ||| (v.val % 65536)

/-! ## EDID vendor decoding (`src/ddc/edid.rs`, `parse_vendor`) -/

/-- Function `parse_vendor`: splits a 16-bit manufacturer word into three
5-bit fields and adds `'A' as u8 - 1 = 0x40` to each.  The three result
characters are embedded as their Unicode code points. -/
def parse_vendor (v : Nat) : List Nat :=
  [ (((v >>> 10) % 256) &&& 0x1f) + 0x40,
    (((v >>> 5) % 256) &&& 0x1f) + 0x40,
    (((v >>> 0) % 256) &&& 0x1f) + 0x40 ]

/-! ## DDC/CI framing layer (`src/ddc/ci.rs`) -/

/-- Error enum `DdcCiProtocolError`.  The `String` payload of
`ParserError` (a formatted nom error) is dropped. -/
inductive DdcCiProtocolError where
  | InvalidLength
  | InvalidChecksum
  | InvalidMessageFormat
  | ParserError
deriving DecidableEq

def DDC_SLAVE_SEND_ADDR : Nat := 0x6f
def DDC_SLAVE_RECV_ADDR : Nat := 0x6e
def DDC_MASTER_SEND_ADDR : Nat := 0x51
def DDC_MASTER_RECV_ADDR : Nat := 0x50

/-- Constant `LENGTH_PREFIX` from the source: the fixed top-bit marker of
the length byte. -/
def lengthMarker : Nat := 0x80

def DDC_MAX_DATA_FRAGMENT_LENGTH : Nat := 32

def DDC_MAX_DATA_FRAGMENT_LENGTH_WITH_EXTRA : Nat :=
  DDC_MAX_DATA_FRAGMENT_LENGTH + 4

/-- Enum `DdcOpcode` with the `Unknown(u8)` fallback. -/
inductive DdcOpcode where
  | IdentificationRequest
  | IdentificationReply
  | CapabilitiesRequest
  | CapabilitiesReply
  | DisplaySelfTestRequest
  | DisplaySelfTestReply
  | TimingRequest
  | TimingReply
  | VcpRequest
  | VcpReply
  | SetVcp
  | ResetVcp
  | TableReadRequest
  | TableReadReply
  | TableWrite
  | EnableApplicationReport
  | SaveCurrentSettings
  | Unknown (b : Nat)
deriving DecidableEq

/-- Conversion `impl From<&DdcOpcode> for u8`. -/
def DdcOpcode.toU8 : DdcOpcode → Nat
  | .Unknown b => b
  | .IdentificationRequest => 0xf1
  | .IdentificationReply => 0xe1
  | .CapabilitiesRequest => 0xf3
  | .CapabilitiesReply => 0xe3
  | .DisplaySelfTestRequest => 0xb1
  | .DisplaySelfTestReply => 0xa1
  | .TimingRequest => 0x07
  | .TimingReply => 0x06
  | .VcpRequest => 0x01
  | .VcpReply => 0x02
  | .SetVcp => 0x03
  | .ResetVcp => 0x09
  | .TableReadRequest => 0xe2
  | .TableReadReply => 0xe4
  | .TableWrite => 0xe7
  | .EnableApplicationReport => 0xf5
  | .SaveCurrentSettings => 0x0c

/-- Conversion `impl From<u8> for DdcOpcode`. -/
def DdcOpcode.ofU8 (b : Nat) : DdcOpcode :=
  if b = 0xf1 then .IdentificationRequest
  else if b = 0xe1 then .IdentificationReply
  else if b = 0xf3 then .CapabilitiesRequest
  else if b = 0xe3 then .CapabilitiesReply
  else if b = 0xb1 then .DisplaySelfTestRequest
  else if b = 0xa1 then .DisplaySelfTestReply
  else if b = 0x07 then .TimingRequest
  else if b = 0x06 then .TimingReply
  else if b = 0x01 then .VcpRequest
  else if b = 0x02 then .VcpReply
  else if b = 0x03 then .SetVcp
  else if b = 0x09 then .ResetVcp
  else if b = 0xe2 then .TableReadRequest
  else if b = 0xe4 then .TableReadReply
  else if b = 0xe7 then .TableWrite
  else if b = 0xf5 then .EnableApplicationReport
  else if b = 0x0c then .SaveCurrentSettings
  else .Unknown b

/-- Predicate `DdcOpcode::has_offset`. -/
def DdcOpcode.has_offset : DdcOpcode → Bool
  | .IdentificationRequest => false
  | .IdentificationReply => false
  | .CapabilitiesRequest => true
  | .CapabilitiesReply => true
  | .DisplaySelfTestRequest => false
  | .DisplaySelfTestReply => false
  | .TimingRequest => false
  | .TimingReply => false
  | .VcpRequest => false
  | .VcpReply => false
  | .SetVcp => false
  | .ResetVcp => false
  | .TableReadRequest => true
  | .TableReadReply => true
  | .TableWrite => true
  | .EnableApplicationReport => false
  | .SaveCurrentSettings => false
  | .Unknown _ => false

/-- Predicate `DdcOpcode::has_vcp_feature`.  The `ResetVcp` arm is
`unimplemented!` in the source (a panic), embedded as `none`. -/
def DdcOpcode.has_vcp_feature : DdcOpcode → Option Bool
  | .IdentificationRequest => some false
  | .IdentificationReply => some false
  | .CapabilitiesRequest => some false
  | .CapabilitiesReply => some false
  | .DisplaySelfTestRequest => some false
  | .DisplaySelfTestReply => some false
  | .TimingRequest => some false
  | .TimingReply => some false
  | .VcpRequest => some true
  | .VcpReply => some false
  | .SetVcp => some true
  | .ResetVcp => none
  | .TableReadRequest => some true
  | .TableReadReply => some false
  | .TableWrite => some true
  | .EnableApplicationReport => some false
  | .SaveCurrentSettings => some false
  | .Unknown _ => some false

/-- Predicate `DdcOpcode::is_response`. -/
def DdcOpcode.is_response : DdcOpcode → Bool
  | .IdentificationRequest => false
  | .IdentificationReply => true
  | .CapabilitiesRequest => false
  | .CapabilitiesReply => true
  | .DisplaySelfTestRequest => false
  | .DisplaySelfTestReply => true
  | .TimingRequest => false
  | .TimingReply => true
  | .VcpRequest => false
  | .VcpReply => true
  | .SetVcp => false
  | .ResetVcp => true
  | .TableReadRequest => false
  | .TableReadReply => true
  | .TableWrite => false
  | .EnableApplicationReport => false
  | .SaveCurrentSettings => false
  | .Unknown _ => false

/-- Struct `DdcCiMessage`.  The fixed `[u8; 36]` data array is embedded as
a `List Nat`; every message built by the library's constructors has
`data.length = 36`.  `offset` is the optional u16, `data_length` the u8
count of meaningful data bytes.  Equality of messages is structural
equality, matching the derived `PartialEq`. -/
structure DdcCiMessage where
  target : Nat
  sender : Nat
  opcode : Option DdcOpcode
  vcp_feature : Option VcpFeatureCode
  offset : Option Nat
  data_length : Nat
  data : List Nat
deriving DecidableEq

namespace DdcCiMessage

/-- Method `protocol_length`: data length plus one byte per present
optional field (u8 arithmetic, hence the `% 256`). -/
def protocol_length (m : DdcCiMessage) : Nat :=
  (m.data_length + (if m.opcode.isSome then 1 else 0)
    + (if m.vcp_feature.isSome then 1 else 0)
    + (if m.offset.isSome then 2 else 0)) % 256

/-- Method `compute_checksum`: XOR over virtual destination, sender,
marked length byte, the present optional fields (offset high byte, then
low byte) and the first `data_length` data bytes.  The source indexes
`data[i]`; the embedding reads `getD i 0` (in range for every message the
library builds, where `data.length = 36` and `data_length ≤ 36`). -/
def compute_checksum (m : DdcCiMessage) : Nat :=
  let c0 := if m.target = DDC_SLAVE_SEND_ADDR then DDC_MASTER_RECV_ADDR else m.target
  let c1 := c0 ^^^ m.sender
  let c2 := c1 ^^^ (lengthMarker ||| m.protocol_length)
  let c3 := match m.opcode with
    | some op => c2 ^^^ op.toU8
    | none => c2
  let c4 := match m.vcp_feature with
    | some f => c3 ^^^ f.toU8
    | none => c3
  let c5 := match m.offset with
    | some off => (c4 ^^^ ((off >>> 8) % 256)) ^^^ (off % 256)
    | none => c4
  (List.range m.data_length).foldl (fun c i => c ^^^ m.data.getD i 0) c5

/-- Constructor `DdcCiMessage::NullResponse`. -/
def NullResponse : DdcCiMessage :=
  { target := DDC_SLAVE_SEND_ADDR
    sender := DDC_SLAVE_RECV_ADDR
    opcode := none
    vcp_feature := none
    offset := none
    data_length := 0
    data := List.replicate DDC_MAX_DATA_FRAGMENT_LENGTH_WITH_EXTRA 0 }

/-- Constructor `DdcCiMessage::from_opcode`. -/
def from_opcode (opcode : DdcOpcode) : DdcCiMessage :=
  { target := if opcode.is_response then DDC_SLAVE_SEND_ADDR else DDC_SLAVE_RECV_ADDR
    sender := if opcode.is_response then DDC_SLAVE_RECV_ADDR else DDC_MASTER_SEND_ADDR
    opcode := some opcode
    vcp_feature := none
    offset := none
    data_length := 0
    data := List.replicate DDC_MAX_DATA_FRAGMENT_LENGTH_WITH_EXTRA 0 }

/-- Method `get_opcode`. -/
def get_opcode (m : DdcCiMessage) : Option DdcOpcode := m.opcode

/-- Method `set_vcp_feature`. -/
def set_vcp_feature (m : DdcCiMessage) (feature : VcpFeatureCode) : DdcCiMessage :=
  { m with vcp_feature := some feature }

/-- Method `set_offset`. -/
def set_offset (m : DdcCiMessage) (offset : Nat) : DdcCiMessage :=
  { m with offset := some offset }

/-- Method `add_offset` (u16 addition, wrapping embedded as `% 65536`). -/
def add_offset (m : DdcCiMessage) (add_offest : Nat) : DdcCiMessage :=
  match m.offset with
  | some offset => { m with offset := some ((offset + add_offest % 256) % 65536) }
  | none => { m with offset := some (add_offest % 256) }

/-- Method `get_offset`. -/
def get_offset (m : DdcCiMessage) : Option Nat := m.offset

/-- Method `set_data`: rejects payloads longer than 32 bytes, otherwise
overwrites the first `data.len()` array entries in place. -/
def set_data (m : DdcCiMessage) (data : List Nat) :
    Except DdcCiProtocolError DdcCiMessage :=
  if data.length > DDC_MAX_DATA_FRAGMENT_LENGTH then
    .error .InvalidLength
  else
    .ok { m with
          data_length := data.length % 256
          data := data ++ m.data.drop data.length }

/-- Method `get_data`: the first `data_length` bytes of the array. -/
def get_data (m : DdcCiMessage) : List Nat := m.data.take m.data_length

/-- Method `get_data_len`. -/
def get_data_len (m : DdcCiMessage) : Nat := m.data_length

/-- Method `addr`: the 7-bit I2C address, the target byte shifted right. -/
def addr (m : DdcCiMessage) : Nat := m.target >>> 1

/-- Method `transmit_buffer`: sender, marked length byte, present optional
fields (offset high byte before low byte), data bytes, checksum. -/
def transmit_buffer (m : DdcCiMessage) : List Nat :=
  [m.sender, lengthMarker ||| m.protocol_length]
  ++ (match m.opcode with
      | some op => [op.toU8]
      | none => [])
  ++ (match m.vcp_feature with
      | some f => [f.toU8]
      | none => [])
  ++ (match m.offset with
      | some off => [(off >>> 8) % 256, off % 256]
      | none => [])
  ++ m.data.take m.data_length
  ++ [m.compute_checksum]

end DdcCiMessage

namespace DdcCiMessage

/-- Data-reading loop of `parse_buffer`: `for j in 0..length` read one
byte (`le_u8`, a nom error if the input is exhausted) and store it at
array index `j` (a Rust panic, embedded as `none`, if `j` is outside the
array). -/
def fillData : Nat → Nat → List Nat → List Nat →
    Option (Except DdcCiProtocolError (List Nat × List Nat))
  | 0, _, input, arr => some (.ok (arr, input))
  | n + 1, j, input, arr =>
    match input with
    | [] => some (.error .ParserError)
    | x :: rest =>
      if j < arr.length then fillData n (j + 1) rest (arr.set j x)
      else none

/-- Method `DdcCiMessage::parse_buffer`.  `none` is a Rust abort: the
`unimplemented!` inside `has_vcp_feature` (reached for every `ResetVcp`
frame), an out-of-bounds data write, or the `todo!` on the `TimingReply`
alternate framing.  nom errors surface as `ParserError`. -/
def parse_buffer (wire : List Nat) :
    Option (Except DdcCiProtocolError DdcCiMessage) :=
  match wire with
  | [] => some (.error .ParserError)
  | _ :: [] => some (.error .ParserError)
  | target :: sender :: rest =>
    match rest with
    | [] => some (.error .ParserError)
    | maybe_length :: after_len =>
      if maybe_length &&& lengthMarker = lengthMarker then
        let length0 := maybe_length &&& 0x7f
        let message : DdcCiMessage :=
          { target := target
            sender := sender
            opcode := none
            vcp_feature := none
            offset := none
            data_length := 0
            data := List.replicate DDC_MAX_DATA_FRAGMENT_LENGTH_WITH_EXTRA 0 }
        if length0 > 0 then
          match after_len with
          | [] => some (.error .ParserError)
          | opbyte :: r1 =>
            let opcode := DdcOpcode.ofU8 opbyte
            let len1 := length0 - 1
            match opcode.has_vcp_feature with
            | none => none
            | some hv =>
              let step1 : Option (Option VcpFeatureCode × Nat × List Nat) :=
                if hv ∧ len1 ≥ 1 then
                  match r1 with
                  | [] => none
                  | vb :: r2 => some (some (VcpFeatureCode.ofU8 vb), len1 - 1, r2)
                else some (none, len1, r1)
              match step1 with
              | none => some (.error .ParserError)
              | some (vcpf, len2, r2) =>
                let step2 : Option (Option Nat × Nat × List Nat) :=
                  if opcode.has_offset ∧ len2 ≥ 2 then
                    match r2 with
                    | hi :: lo :: r3 => some (some ((hi <<< 8) ||| lo), len2 - 2, r3)
                    | _ => none
                  else some (none, len2, r2)
                match step2 with
                | none => some (.error .ParserError)
                | some (off, len3, r3) =>
                  match fillData len3 0 r3 message.data with
                  | none => none
                  | some (.error e) => some (.error e)
                  | some (.ok (arr, r4)) =>
                    let message := { message with
                                     opcode := some opcode
                                     vcp_feature := vcpf
                                     offset := off
                                     data_length := len3
                                     data := arr }
                    match r4 with
                    | [] => some (.error .ParserError)
                    | check_sum :: _ =>
                      if check_sum = message.compute_checksum then
                        some (.ok message)
                      else
                        some (.error .InvalidChecksum)
        else
          match after_len with
          | [] => some (.error .ParserError)
          | check_sum :: _ =>
            if check_sum = message.compute_checksum then
              some (.ok message)
            else
              some (.error .InvalidChecksum)
      else if maybe_length = DdcOpcode.TimingReply.toU8 then
        none
      else
        some (.error .InvalidMessageFormat)

end DdcCiMessage

/-- Enum `ResultCode` of a feature reply. -/
inductive ResultCode where
  | NoError
  | UnsupportedCode
deriving DecidableEq

/-- Enum `VcpType` of a feature reply. -/
inductive VcpType where
  | SetParameter
  | Momentary
deriving DecidableEq

/-- Struct `FeatureReplyMessage`. -/
structure FeatureReplyMessage where
  result_code : ResultCode
  vcp_feature : VcpFeatureCode
  type_code : VcpType
  vcp_data : Nat
deriving DecidableEq

/-- Parser `parse_result_code`: byte 0x00 or 0x01, anything else is a nom
failure (`none`). -/
def parse_result_code (i : List Nat) : Option (ResultCode × List Nat) :=
  match i with
  | [] => none
  | rc :: rest =>
    if rc = 0x00 then some (.NoError, rest)
    else if rc = 0x01 then some (.UnsupportedCode, rest)
    else none

/-- Parser `parse_vcp_type`: byte 0x00 or 0x01, anything else is a nom
failure (`none`). -/
def parse_vcp_type (i : List Nat) : Option (VcpType × List Nat) :=
  match i with
  | [] => none
  | ty :: rest =>
    if ty = 0x00 then some (.SetParameter, rest)
    else if ty = 0x01 then some (.Momentary, rest)
    else none

/-- Parser `parse_feature_reply`: result code, echoed feature byte, VCP
type, then MH ML VH VL packed big-endian into the 32-bit value. -/
def parse_feature_reply (i : List Nat) :
    Option (FeatureReplyMessage × List Nat) :=
  match parse_result_code i with
  | none => none
  | some (rc, i1) =>
    match i1 with
    | [] => none
    | vcp_code :: i2 =>
      match parse_vcp_type i2 with
      | none => none
      | some (tp, i3) =>
        match i3 with
        | mh :: ml :: vh :: vl :: i4 =>
          some ({ result_code := rc
                  vcp_feature := VcpFeatureCode.ofU8 vcp_code
                  type_code := tp
                  vcp_data := ((mh <<< 24) ||| (ml <<< 16)) ||| ((vh <<< 8) ||| vl) }, i4)
        | _ => none

/-! ## EDID parser (`src/ddc/edid.rs`) -/

/-- Error enum `EdidParseError`; the formatted nom message is dropped. -/
inductive EdidParseError where
  | InvalidChecksum
  | NomParserError
deriving DecidableEq

/-- nom primitive `le_u8` on a byte list: take one byte. -/
def le_u8 (i : List Nat) : Option (Nat × List Nat) :=
  match i with
  | [] => none
  | x :: rest => some (x, rest)

/-- nom primitive `take(n)`: split off the first `n` bytes. -/
def takeBytes (n : Nat) (i : List Nat) : Option (List Nat × List Nat) :=
  if n ≤ i.length then some (i.take n, i.drop n) else none

/-- nom primitive `be_u16`. -/
def be_u16 (i : List Nat) : Option (Nat × List Nat) :=
  match i with
  | b0 :: b1 :: rest => some ((b0 <<< 8) ||| b1, rest)
  | _ => none

/-- nom primitive `le_u16`. -/
def le_u16 (i : List Nat) : Option (Nat × List Nat) :=
  match i with
  | b0 :: b1 :: rest => some (b0 ||| (b1 <<< 8), rest)
  | _ => none

/-- nom primitive `le_u32`. -/
def le_u32 (i : List Nat) : Option (Nat × List Nat) :=
  match i with
  | b0 :: b1 :: b2 :: b3 :: rest =>
    some (((b0 ||| (b1 <<< 8)) ||| (b2 <<< 16)) ||| (b3 <<< 24), rest)
  | _ => none

/-- Struct `Header` of an EDID block.  The three vendor characters are
embedded as code points. -/
structure Header where
  vendor : List Nat
  product : Nat
  serial : Nat
  week : Nat
  year : Nat
  version : Nat
  revision : Nat
deriving DecidableEq

/-- Parser `parse_header`: fixed 8-byte preamble, then the identity
fields. -/
def parse_header (i : List Nat) : Option (Header × List Nat) :=
  match takeBytes 8 i with
  | none => none
  | some (pre, i) =>
    if pre = [0x00, 0xFF, 0xFF, 0xFF, 0xFF, 0xFF, 0xFF, 0x00] then
      match be_u16 i with
      | none => none
      | some (vendor, i) =>
        match le_u16 i with
        | none => none
        | some (product, i) =>
          match le_u32 i with
          | none => none
          | some (serial, i) =>
            match i with
            | week :: year :: version :: revision :: i =>
              some ({ vendor := parse_vendor vendor
                      product := product
                      serial := serial
                      week := week
                      year := year
                      version := version
                      revision := revision }, i)
            | _ => none
    else none

/-- Struct `Display` of an EDID block. -/
structure Display where
  video_input : Nat
  width : Nat
  height : Nat
  gamma : Nat
  features : Nat
deriving DecidableEq

/-- Parser `parse_display`: five single bytes. -/
def parse_display (i : List Nat) : Option (Display × List Nat) :=
  match i with
  | video_input :: width :: height :: gamma :: features :: rest =>
    some ({ video_input := video_input
            width := width
            height := height
            gamma := gamma
            features := features }, rest)
  | _ => none

/-- Parser `parse_chromaticity`: ten pass-through bytes. -/
def parse_chromaticity (i : List Nat) : Option (Unit × List Nat) :=
  match takeBytes 10 i with
  | none => none
  | some (_, rest) => some ((), rest)

/-- Parser `parse_established_timing`: three pass-through bytes. -/
def parse_established_timing (i : List Nat) : Option (Unit × List Nat) :=
  match takeBytes 3 i with
  | none => none
  | some (_, rest) => some ((), rest)

/-- Parser `parse_standard_timing`: sixteen pass-through bytes. -/
def parse_standard_timing (i : List Nat) : Option (Unit × List Nat) :=
  match takeBytes 16 i with
  | none => none
  | some (_, rest) => some ((), rest)

/-- Table `CP437_FORWARD_TABLE`: code page 437 to Unicode scalar. -/
def CP437_FORWARD_TABLE : List Nat :=
  [ 0x0000, 0x263A, 0x263B, 0x2665, 0x2666, 0x2663, 0x2660, 0x2022, 0x25D8, 0x25CB, 0x25D9, 0x2642,
    0x2640, 0x266A, 0x266B, 0x263C, 0x25BA, 0x25C4, 0x2195, 0x203C, 0x00B6, 0x00A7, 0x25AC, 0x21A8,
    0x2191, 0x2193, 0x2192, 0x2190, 0x221F, 0x2194, 0x25B2, 0x25BC, 0x0020, 0x0021, 0x0022, 0x0023,
    0x0024, 0x0025, 0x0026, 0x0027, 0x0028, 0x0029, 0x002A, 0x002B, 0x002C, 0x002D, 0x002E, 0x002F,
    0x0030, 0x0031, 0x0032, 0x0033, 0x0034, 0x0035, 0x0036, 0x0037, 0x0038, 0x0039, 0x003A, 0x003B,
    0x003C, 0x003D, 0x003E, 0x003F, 0x0040, 0x0041, 0x0042, 0x0043, 0x0044, 0x0045, 0x0046, 0x0047,
    0x0048, 0x0049, 0x004A, 0x004B, 0x004C, 0x004D, 0x004E, 0x004F, 0x0050, 0x0051, 0x0052, 0x0053,
    0x0054, 0x0055, 0x0056, 0x0057, 0x0058, 0x0059, 0x005A, 0x005B, 0x005C, 0x005D, 0x005E, 0x005F,
    0x0060, 0x0061, 0x0062, 0x0063, 0x0064, 0x0065, 0x0066, 0x0067, 0x0068, 0x0069, 0x006A, 0x006B,
    0x006C, 0x006D, 0x006E, 0x006F, 0x0070, 0x0071, 0x0072, 0x0073, 0x0074, 0x0075, 0x0076, 0x0077,
    0x0078, 0x0079, 0x007A, 0x007B, 0x007C, 0x007D, 0x007E, 0x2302, 0x00C7, 0x00FC, 0x00E9, 0x00E2,
    0x00E4, 0x00E0, 0x00E5, 0x00E7, 0x00EA, 0x00EB, 0x00E8, 0x00EF, 0x00EE, 0x00EC, 0x00C4, 0x00C5,
    0x00C9, 0x00E6, 0x00C6, 0x00F4, 0x00F6, 0x00F2, 0x00FB, 0x00F9, 0x00FF, 0x00D6, 0x00DC, 0x00A2,
    0x00A3, 0x00A5, 0x20A7, 0x0192, 0x00E1, 0x00ED, 0x00F3, 0x00FA, 0x00F1, 0x00D1, 0x00AA, 0x00BA,
    0x00BF, 0x2310, 0x00AC, 0x00BD, 0x00BC, 0x00A1, 0x00AB, 0x00BB, 0x2591, 0x2592, 0x2593, 0x2502,
    0x2524, 0x2561, 0x2562, 0x2556, 0x2555, 0x2563, 0x2551, 0x2557, 0x255D, 0x255C, 0x255B, 0x2510,
    0x2514, 0x2534, 0x252C, 0x251C, 0x2500, 0x253C, 0x255E, 0x255F, 0x255A, 0x2554, 0x2569, 0x2566,
    0x2560, 0x2550, 0x256C, 0x2567, 0x2568, 0x2564, 0x2565, 0x2559, 0x2558, 0x2552, 0x2553, 0x256B,
    0x256A, 0x2518, 0x250C, 0x2588, 0x2584, 0x258C, 0x2590, 0x2580, 0x03B1, 0x00DF, 0x0393, 0x03C0,
    0x03A3, 0x03C3, 0x00B5, 0x03C4, 0x03A6, 0x0398, 0x03A9, 0x03B4, 0x221E, 0x03C6, 0x03B5, 0x2229,
    0x2261, 0x00B1, 0x2265, 0x2264, 0x2320, 0x2321, 0x00F7, 0x2248, 0x00B0, 0x2219, 0x00B7, 0x221A,
    0x207F, 0x00B2, 0x25A0, 0x00A0 ]

/-- Function `cp437_forward`: table lookup (total for every byte). -/
def cp437_forward (code : Nat) : Nat := CP437_FORWARD_TABLE.getD code 0

/-- Rust `char::is_whitespace`: the Unicode White_Space code points. -/
def isRustWhitespace (c : Nat) : Bool :=
  (c = 0x09 || c = 0x0A || c = 0x0B || c = 0x0C || c = 0x0D || c = 0x20) ||
  (c = 0x85 || c = 0xA0 || c = 0x1680) ||
  (0x2000 ≤ c && c ≤ 0x200A) ||
  (c = 0x2028 || c = 0x2029 || c = 0x202F || c = 0x205F || c = 0x3000)

/-- Rust `str::trim` on a list of code points. -/
def rustTrim (s : List Nat) : List Nat :=
  (((s.dropWhile isRustWhitespace).reverse.dropWhile isRustWhitespace).reverse)

/-- Parser `parse_descriptor_text`: thirteen bytes, drop LF bytes, decode
the rest through code page 437, trim surrounding whitespace. -/
def parse_descriptor_text (i : List Nat) : Option (List Nat × List Nat) :=
  match takeBytes 13 i with
  | none => none
  | some (encoded, rest) =>
    some (rustTrim ((encoded.filter (fun b => b ≠ 0x0A)).map cp437_forward), rest)

/-- Struct `DetailedTiming`. -/
structure DetailedTiming where
  pixel_clock : Nat
  horizontal_active_pixels : Nat
  horizontal_blanking_pixels : Nat
  vertical_active_lines : Nat
  vertical_blanking_lines : Nat
  horizontal_front_porch : Nat
  horizontal_sync_width : Nat
  vertical_front_porch : Nat
  vertical_sync_width : Nat
  horizontal_size : Nat
  vertical_size : Nat
  horizontal_border_pixels : Nat
  vertical_border_pixels : Nat
  features : Nat
deriving DecidableEq

/-- Parser `parse_detailed_timing`: a little-endian pixel-clock word and
sixteen packed bytes, recombined with the VESA shifts of the source. -/
def parse_detailed_timing (i : List Nat) : Option (DetailedTiming × List Nat) :=
  match le_u16 i with
  | none => none
  | some (pixel_clock_10khz, i) =>
    match i with
    | horizontal_active_lo :: horizontal_blanking_lo :: horizontal_px_hi ::
      vertical_active_lo :: vertical_blanking_lo :: vertical_px_hi ::
      horizontal_front_porch_lo :: horizontal_sync_width_lo :: vertical_lo ::
      porch_sync_hi :: horizontal_size_lo :: vertical_size_lo :: size_hi ::
      horizontal_border :: vertical_border :: features :: rest =>
      some ({ pixel_clock := pixel_clock_10khz * 10
              horizontal_active_pixels :=
                horizontal_active_lo ||| ((horizontal_px_hi >>> 4) <<< 8)
              horizontal_blanking_pixels :=
                horizontal_blanking_lo ||| ((horizontal_px_hi &&& 0xf) <<< 8)
              vertical_active_lines :=
                vertical_active_lo ||| ((vertical_px_hi >>> 4) <<< 8)
              vertical_blanking_lines :=
                vertical_blanking_lo ||| ((vertical_px_hi &&& 0xf) <<< 8)
              horizontal_front_porch :=
                horizontal_front_porch_lo ||| ((porch_sync_hi >>> 6) <<< 8)
              horizontal_sync_width :=
                horizontal_sync_width_lo ||| (((porch_sync_hi >>> 4) &&& 0x3) <<< 8)
              vertical_front_porch :=
                (vertical_lo >>> 4) ||| (((porch_sync_hi >>> 2) &&& 0x3) <<< 8)
              vertical_sync_width :=
                (vertical_lo &&& 0xf) ||| ((porch_sync_hi &&& 0x3) <<< 8)
              horizontal_size :=
                horizontal_size_lo ||| ((size_hi >>> 4) <<< 8)
              vertical_size :=
                vertical_size_lo ||| ((size_hi &&& 0xf) <<< 8)
              horizontal_border_pixels := horizontal_border
              vertical_border_pixels := vertical_border
              features := features }, rest)
    | _ => none

/-- Enum `Descriptor`.  Text payloads are code-point lists; `Unknown`
keeps the raw thirteen bytes. -/
inductive Descriptor where
  | DetailedTiming (t : DetailedTiming)
  | SerialNumber (s : List Nat)
  | UnspecifiedText (s : List Nat)
  | RangeLimits
  | ProductName (s : List Nat)
  | WhitePoint
  | StandardTiming
  | ColorManagement
  | TimingCodes
  | EstablishedTimings
  | Dummy
  | Unknown (d : List Nat)
deriving DecidableEq

/-- Helper of `parse_descriptor`: the shared shape of one monitor
descriptor arm — five reserved bytes, then a text payload mapped through
`k`, or thirteen discarded bytes for the payload-free tags. -/
def descriptorTail (i : List Nat) (k : List Nat → Descriptor)
    (text : Bool) : Option (Descriptor × List Nat) :=
  match takeBytes 5 i with
  | none => none
  | some (_, i) =>
    if text then
      match parse_descriptor_text i with
      | none => none
      | some (s, rest) => some (k s, rest)
    else
      match takeBytes 13 i with
      | none => none
      | some (d, rest) => some (k d, rest)

/-- Parser `parse_descriptor`.  Note the source peeks the descriptor type
at offset 0 (not at the tag offset 3), so inside the all-zero-prefix
branch the match scrutinee is always the zero byte and the `_` arm is the
one taken; the embedding reproduces that faithfully. -/
def parse_descriptor (i : List Nat) : Option (Descriptor × List Nat) :=
  match takeBytes 3 i with
  | none => none
  | some (pre, _) =>
    if pre.getD 0 0 = 0 ∧ pre.getD 1 0 = 0 ∧ pre.getD 2 0 = 0 then
      match le_u8 i with
      | none => none
      | some (descriptor_type, _) =>
        if descriptor_type = 0xFF then
          descriptorTail i (fun s => .SerialNumber s) true
        else if descriptor_type = 0xFE then
          descriptorTail i (fun s => .UnspecifiedText s) true
        else if descriptor_type = 0xFD then
          descriptorTail i (fun _ => .RangeLimits) false
        else if descriptor_type = 0xFC then
          descriptorTail i (fun s => .ProductName s) true
        else if descriptor_type = 0xFB then
          descriptorTail i (fun _ => .WhitePoint) false
        else if descriptor_type = 0xFA then
          descriptorTail i (fun _ => .StandardTiming) false
        else if descriptor_type = 0xF9 then
          descriptorTail i (fun _ => .ColorManagement) false
        else if descriptor_type = 0xF8 then
          descriptorTail i (fun _ => .TimingCodes) false
        else if descriptor_type = 0xF7 then
          descriptorTail i (fun _ => .EstablishedTimings) false
        else if descriptor_type = 0x10 then
          descriptorTail i (fun _ => .Dummy) false
        else
          descriptorTail i (fun d => .Unknown d) false
    else
      match parse_detailed_timing i with
      | none => none
      | some (timing, rest) => some (.DetailedTiming timing, rest)

/-- nom combinator `count(parse_descriptor, n)`. -/
def countDescriptors : Nat → List Nat → Option (List Descriptor × List Nat)
  | 0, i => some ([], i)
  | n + 1, i =>
    match parse_descriptor i with
    | none => none
    | some (d, rest) =>
      match countDescriptors n rest with
      | none => none
      | some (ds, rest) => some (d :: ds, rest)

/-- Struct `Edid`. -/
structure Edid where
  header : Header
  display : Display
  descriptors : List Descriptor
  num_extr : Nat
deriving DecidableEq

/-- Wrapping byte sum of `full_input[0 .. n]` (`u8::overflowing_add`
loop of `parse_edid`, with `n = full_input.len() - 1`). -/
def sumBytes (l : List Nat) (n : Nat) : Nat :=
  (List.range n).foldl (fun s i => (s + l.getD i 0) % 256) 0

/-- Function `parse_edid`: the structural parse followed by the
whole-block checksum test. -/
def parse_edid (full_input : List Nat) : Except EdidParseError Edid :=
  match parse_header full_input with
  | none => .error .NomParserError
  | some (header, i) =>
    match parse_display i with
    | none => .error .NomParserError
    | some (display, i) =>
      match parse_chromaticity i with
      | none => .error .NomParserError
      | some (_, i) =>
        match parse_established_timing i with
        | none => .error .NomParserError
        | some (_, i) =>
          match parse_standard_timing i with
          | none => .error .NomParserError
          | some (_, i) =>
            match countDescriptors 4 i with
            | none => .error .NomParserError
            | some (descriptors, i) =>
              match i with
              | num_extr :: check :: _ =>
                let sum_all := sumBytes full_input (full_input.length - 1)
                if (sum_all + check) % 256 = 0 then
                  .ok { header := header
                        display := display
                        descriptors := descriptors
                        num_extr := num_extr }
                else
                  .error .InvalidChecksum
              | _ => .error .NomParserError

/-! ## Device facade (`src/ddc/mod.rs`)

The facade functions run over the `DdcCommunicationBase` transport
(`transmit` / `receive` / `delay`).  A device is modelled by the function
`recv : Nat → List Nat` giving the buffer returned by the k-th `receive`
call of the operation; `transmit` and `delay` always succeed and are
recorded, together with each `receive`, in an event trace.  The overall
result is `none` when the Rust code aborts (a panic inside
`parse_buffer`, or — for the capability loop, whose source `while` has no
bound — when the fuel runs out). -/

/-- Error enum `DdcCiError`; the `anyhow` payloads are dropped. -/
inductive DdcCiError where
  | TransmitError
  | ReceiveError
  | ProtocolError (e : DdcCiProtocolError)
  | UnexpectedReplyCode
deriving DecidableEq

/-- Error enum `DdcError` (payloads dropped). -/
inductive DdcError where
  | ReadDataError
  | EdidParseErr
  | InternalDisplay
  | CommunicationError (e : DdcCiError)
  | UnsupportedVcpFeature
deriving DecidableEq

/-- One transport interaction of the facade. -/
inductive Event where
  | tx (addr : Nat) (data : List Nat)
  | delay (ms : Nat)
  | rx (addr : Nat) (buf : List Nat)
deriving DecidableEq

/-- Count of `transmit` calls in a trace. -/
def countTx (evs : List Event) : Nat :=
  (evs.filter (fun e => match e with | .tx _ _ => true | _ => false)).length

/-- Shared exchange shape `transmit; delay(ms); receive; parse` used by
both facade operations. -/
def exchange (req : DdcCiMessage) (ms : Nat) (recv : Nat → List Nat) (k : Nat) :
    List Event × Option (Except DdcCiProtocolError DdcCiMessage) :=
  ([.tx req.addr req.transmit_buffer, .delay ms, .rx req.addr (recv k)],
   DdcCiMessage.parse_buffer (recv k))

/-- Capability-request loop of `read_capabilities`: while the last reply
has data, append it, advance the request offset by the reply's data
length, and exchange again. -/
def capLoop (recv : Nat → List Nat) :
    Nat → Nat → DdcCiMessage → DdcCiMessage → List Nat →
    List Event × Option (Except DdcError (List Nat))
  | 0, _, _, _, _ => ([], none)
  | fuel + 1, k, req, reply, acc =>
    if reply.get_data_len = 0 then ([], some (.ok acc))
    else
      let acc := acc ++ reply.get_data
      let req := req.add_offset reply.get_data_len
      let (evs, res) := exchange req 50 recv k
      match res with
      | none => (evs, none)
      | some (.error e) => (evs, some (.error (.CommunicationError (.ProtocolError e))))
      | some (.ok reply) =>
        let (evs2, out) := capLoop recv fuel (k + 1) req reply acc
        (evs ++ evs2, out)

/-- Facade method `read_capabilities`, up to the point where the
accumulated capability bytes are handed to the capability-string parser:
the returned list is exactly that byte buffer. -/
def read_capabilities (recv : Nat → List Nat) (fuel : Nat) :
    List Event × Option (Except DdcError (List Nat)) :=
  let req := (DdcCiMessage.from_opcode .CapabilitiesRequest).set_offset 0x0
  let (evs, res) := exchange req 50 recv 0
  match res with
  | none => (evs, none)
  | some (.error e) => (evs, some (.error (.CommunicationError (.ProtocolError e))))
  | some (.ok reply) =>
    let (evs2, out) := capLoop recv fuel 1 req reply []
    (evs ++ evs2, out)

/-- Null-reply retry loop of `get_vcp_feature`: while the retry budget is
positive and the parsed reply equals the Null response, exchange again. -/
def vcpRetryLoop (req : DdcCiMessage) (recv : Nat → List Nat) :
    Nat → Nat → DdcCiMessage →
    List Event × Option (Except DdcError DdcCiMessage)
  | 0, _, reply => ([], some (.ok reply))
  | retry + 1, k, reply =>
    if reply = DdcCiMessage.NullResponse then
      let (evs, res) := exchange req 40 recv k
      match res with
      | none => (evs, none)
      | some (.error e) => (evs, some (.error (.CommunicationError (.ProtocolError e))))
      | some (.ok reply) =>
        let (evs2, out) := vcpRetryLoop req recv retry (k + 1) reply
        (evs ++ evs2, out)
    else ([], some (.ok reply))

/-- Facade method `get_vcp_feature`, for the feature code
`V::vcp_feature()` of the requested value type.  The returned number is
the reply's raw 32-bit `vcp_data` word, which the caller's `V: From<u32>`
conversion then decodes. -/
def get_vcp_feature (feature : VcpFeatureCode) (recv : Nat → List Nat) :
    List Event × Option (Except DdcError Nat) :=
  let req := (DdcCiMessage.from_opcode .VcpRequest).set_vcp_feature feature
  let (evs, res) := exchange req 40 recv 0
  match res with
  | none => (evs, none)
  | some (.error e) => (evs, some (.error (.CommunicationError (.ProtocolError e))))
  | some (.ok reply) =>
    let (evs2, out) := vcpRetryLoop req recv 3 1 reply
    let evs := evs ++ evs2
    match out with
    | none => (evs, none)
    | some (.error e) => (evs, some (.error e))
    | some (.ok reply) =>
      if reply.get_opcode = some .VcpReply then
        match parse_feature_reply reply.get_data with
        | none => (evs, some (.error (.CommunicationError (.ProtocolError .ParserError))))
        | some (vcp_resp, _) =>
          if vcp_resp.result_code = .UnsupportedCode then
            (evs, some (.error .UnsupportedVcpFeature))
          else
            (evs, some (.ok vcp_resp.vcp_data))
      else
        (evs, some (.error (.CommunicationError .UnexpectedReplyCode)))

/-! ## Change-notification iterator (`src/mccs/features/queue.rs`)

The iterator's `next` is embedded over oracles for the three facade
calls it makes: the `NewControlValue` read, the `ActiveControl` FIFO
read, and the typed `read_from_ddc` follow-up (whose `.unwrap()` panic is
the outer `none`).  The state is the `started` flag; the write of
`NewControlValue::Finished` on FIFO drain is a discarded result in the
source and is not recorded. -/

/-- Enum `VcpFeatureValue`, restricted to the payloads `next` can
produce.  Typed payloads are kept as the raw reads the oracle returns. -/
inductive VcpFeatureValue where
  | NewControlVal (c : NewControlValue)
  | Luminance (l : LuminanceValue)
  | Contrast (c : ContrastValue)
  | OsdLanguage (w : Nat)
  | InputSelect (w : Nat)
  | Unimplemented (b : Nat) (w : Nat)
deriving DecidableEq

/-- Body of `next` after the start check: pull one FIFO code and
materialise it.  A `CodePage` code drains the FIFO (the `Finished` write
back is a discarded result in the source). -/
def queueNextStarted (featRead : Except DdcError VcpFeatureCode)
    (valueRead : VcpFeatureCode → Except DdcError VcpFeatureValue) :
    Option (Option (Except DdcError VcpFeatureValue) × Bool) :=
  match featRead with
  | .ok feature =>
    if feature = VcpFeatureCode.CodePage then some (none, true)
    else
      match feature with
      | .Luminance | .Contrast | .OsdLanguage | .InputSelect =>
        match valueRead feature with
        | .ok v => some (some (.ok v), true)
        | .error _ => none
      | _ => some (some (.ok (.Unimplemented feature.toU8 0)), true)
  | .error e => some (some (.error e), true)

/-- Iterator method `VcpCodeUpdateQueue::next`.  Returns the yielded item
(`none` for iterator exhaustion) and the updated `started` flag; the
outer `Option` is a Rust panic. -/
def queueNext (started : Bool)
    (ncvRead : Except DdcError NewControlValue)
    (featRead : Except DdcError VcpFeatureCode)
    (valueRead : VcpFeatureCode → Except DdcError VcpFeatureValue) :
    Option (Option (Except DdcError VcpFeatureValue) × Bool) :=
  if !started then
    match ncvRead with
    | .error _ => some (none, started)
    | .ok cv =>
      if cv ≠ NewControlValue.NewControlValuesPresent then some (none, started)
      else
        queueNextStarted featRead valueRead
  else
    queueNextStarted featRead valueRead

/-! ## Support definitions for the verified properties -/

/-- Decidable equality for `Except`, so that concrete parses can be
checked by evaluation. -/
instance instDecEqExcept {e a : Type} [DecidableEq e] [DecidableEq a] :
    DecidableEq (Except e a) := fun x y =>
  match x, y with
  | .ok v, .ok w =>
    if h : v = w then isTrue (by rw [h])
    else isFalse (by intro he; cases he; exact h rfl)
  | .error v, .error w =>
    if h : v = w then isTrue (by rw [h])
    else isFalse (by intro he; cases he; exact h rfl)
  | .ok _, .error _ => isFalse (by intro he; cases he)
  | .error _, .ok _ => isFalse (by intro he; cases he)

/-- Validity of a `DdcCiMessage` exactly as the round-trip claim words
it: the payload fits in a fragment and the optional fields are the ones
the opcode's layout predicates call for. -/
def ClaimValid (m : DdcCiMessage) : Prop :=
  m.data.length = 36 ∧
  m.data_length ≤ 32 ∧
  (∀ off, m.offset = some off → off < 65536) ∧
  (match m.opcode with
   | none => m.vcp_feature = none ∧ m.offset = none ∧ m.data_length = 0
   | some op =>
     (m.vcp_feature.isSome ↔ op.has_vcp_feature = some true) ∧
     (m.offset.isSome = op.has_offset))

/-- Strengthened validity under which the round-trip actually holds: in
addition to `ClaimValid`, the data array is zero beyond the payload, the
opcode has a defined `has_vcp_feature` predicate (rules out `ResetVcp`,
whose parse arm is `unimplemented!`), and the opcode and feature byte
encodings decode back to the same variants (rules out `Unknown` /
`Unimplemented` variants aliasing a named code). -/
def ValidMessage (m : DdcCiMessage) : Prop :=
  ClaimValid m ∧
  m.data.drop m.data_length = List.replicate (36 - m.data_length) 0 ∧
  (∀ op, m.opcode = some op →
    DdcOpcode.ofU8 op.toU8 = op ∧ op.has_vcp_feature.isSome) ∧
  (∀ f, m.vcp_feature = some f → VcpFeatureCode.ofU8 f.toU8 = f)

/-- Byte list over which the checksum claim states the XOR: virtual
destination, sender, marked length byte, the present optional fields
(offset high before low), then the payload bytes. -/
def checksumBytes (m : DdcCiMessage) : List Nat :=
  [if m.target = DDC_SLAVE_SEND_ADDR then DDC_MASTER_RECV_ADDR else m.target,
   m.sender,
   lengthMarker ||| m.protocol_length]
  ++ (m.opcode.map DdcOpcode.toU8).toList
  ++ (m.vcp_feature.map VcpFeatureCode.toU8).toList
  ++ ((m.offset.map (fun off => [(off >>> 8) % 256, off % 256])).getD [])
  ++ m.data.take m.data_length

/-- DDC/CI message that is valid in the round-trip claim's own terms but
whose opcode byte decodes to a different variant: `Unknown(0x01)` encodes
to the `VcpRequest` byte. -/
def aliasMsg : DdcCiMessage :=
  { target := DDC_SLAVE_RECV_ADDR
    sender := DDC_MASTER_SEND_ADDR
    opcode := some (DdcOpcode.Unknown 0x01)
    vcp_feature := none
    offset := none
    data_length := 0
    data := List.replicate DDC_MAX_DATA_FRAGMENT_LENGTH_WITH_EXTRA 0 }

/-- First 32-byte capability payload of the fragmentation scenario. -/
def capPayload0 : List Nat := List.range 32

/-- Second 32-byte capability payload of the fragmentation scenario. -/
def capPayload1 : List Nat := (List.range 32).map (fun i => i + 100)

/-- Monitor-side `CapabilitiesReply` frame at a given offset with a given
payload (built with the library's own constructors). -/
def capReplyMsg (off : Nat) (payload : List Nat) : DdcCiMessage :=
  match ((DdcCiMessage.from_opcode .CapabilitiesReply).set_offset off).set_data payload with
  | .ok m => m
  | .error _ => DdcCiMessage.NullResponse

/-- Receive buffers of the fragmentation scenario: replies of payload
lengths 32, 32 and 0 at offsets 0, 32 and 64, each prefixed by the raw
read address byte the transport mirrors into byte 0. -/
def capDevRecv : Nat → List Nat := fun k =>
  if k = 0 then
    (capReplyMsg 0 capPayload0).target :: (capReplyMsg 0 capPayload0).transmit_buffer
  else if k = 1 then
    (capReplyMsg 32 capPayload1).target :: (capReplyMsg 32 capPayload1).transmit_buffer
  else
    (capReplyMsg 64 []).target :: (capReplyMsg 64 []).transmit_buffer

/-- Wire image of the Null response as a monitor returns it. -/
def nullWire : List Nat :=
  DdcCiMessage.NullResponse.target :: DdcCiMessage.NullResponse.transmit_buffer

/-- Device that always answers the Null response. -/
def nullDevRecv : Nat → List Nat := fun _ => nullWire

/-- Monitor-side `VcpReply` frame whose feature-reply payload carries
result code 0x01 (`UnsupportedCode`). -/
def unsupportedReply : DdcCiMessage :=
  match (DdcCiMessage.from_opcode .VcpReply).set_data
      [0x01, 0x10, 0x00, 0x00, 0x00, 0x00, 0x00] with
  | .ok m => m
  | .error _ => DdcCiMessage.NullResponse

/-- Device that always answers the unsupported-code reply. -/
def unsupportedDevRecv : Nat → List Nat :=
  fun _ => unsupportedReply.target :: unsupportedReply.transmit_buffer

/-- EDID preamble bytes. -/
def edidPreamble : List Nat := [0x00, 0xFF, 0xFF, 0xFF, 0xFF, 0xFF, 0xFF, 0x00]

/-- Structurally well-formed 129-byte buffer whose first 128 bytes sum to
255 mod 256 while the extended sum rule of the source accepts it. -/
def c3Input : List Nat :=
  edidPreamble ++ List.replicate 118 0 ++ [4, 1, 0]

/-- Well-formed 128-byte EDID block whose checksum byte is wrong: the
first 127 bytes sum to 250 mod 256 and the final byte is 7, so the block
sum is 1 mod 256. -/
def c3WitnessInput : List Nat :=
  edidPreamble ++ List.replicate 119 0 ++ [7]

/-- Sequential array write: store the bytes of `xs` into `arr` starting
at index `j` (the functional form of the data-filling loop of
`parse_buffer`). -/
def arrWrite : List Nat → Nat → List Nat → List Nat
  | arr, _, [] => arr
  | arr, j, x :: xs => arrWrite (arr.set j x) (j + 1) xs

/-! ## Shared helper lemmas -/

/-- Or-ing a byte below 256 into a value shifted left by eight is plain
addition. -/
theorem shiftLeft8_or_eq_add (a b : Nat) (hb : b < 256) :
    (a <<< 8) ||| b = a * 256 + b := by
  have h : a <<< 8 = a * 256 := Nat.shiftLeft_eq a 8
  have h2 : a * 256 = 2 ^ 8 * a := by ring
  rw [h, h2, ← Nat.mul_add_lt_is_or hb a]

/-- Splitting a sixteen-bit offset into its two wire bytes and
recombining them is the identity. -/
theorem offset_recombine (off : Nat) (h : off < 65536) :
    (((off >>> 8) % 256) <<< 8) ||| (off % 256) = off := by
  have hs : off >>> 8 = off / 256 := Nat.shiftRight_eq_div_pow off 8
  have hd : off / 256 < 256 := by omega
  rw [hs, Nat.mod_eq_of_lt hd,
    shiftLeft8_or_eq_add _ _ (Nat.mod_lt _ (by norm_num))]
  omega

/-- Marked length byte keeps its marker bit. -/
theorem marker_or_and_marker (n : Nat) : (0x80 ||| n) &&& 0x80 = 0x80 := by
  rw [Nat.and_distrib_right]
  have h : n &&& 0x80 = (n.testBit 7).toNat * 2 ^ 7 := by
    have := Nat.and_two_pow n 7
    norm_num at this ⊢
    exact this
  rw [h]
  cases n.testBit 7 <;> simp

/-- Masking the marker off a marked length byte returns the length. -/
theorem marker_or_and_low (n : Nat) (h : n < 128) : (0x80 ||| n) &&& 0x7f = n := by
  rw [Nat.and_distrib_right]
  have h1 : (0x80 : Nat) &&& 0x7f = 0 := by decide
  have h2 : n &&& 0x7f = n % 2 ^ 7 := by
    have := Nat.and_pow_two_sub_one_eq_mod n 7
    norm_num at this ⊢
    exact this
  rw [h1, h2, Nat.zero_or, Nat.mod_eq_of_lt (by omega)]

/-- Truncating to a byte before masking five low bits changes nothing. -/
theorem mod256_and_31 (x : Nat) : (x % 256) &&& 0x1f = x &&& 0x1f := by
  have h : x % 256 = x &&& (2 ^ 8 - 1) := by
    rw [Nat.and_pow_two_sub_one_eq_mod]
  rw [h, Nat.and_assoc]
  have h31 : (2 ^ 8 - 1 : Nat) &&& 31 = 31 := by decide
  rw [h31]

/-- Indexed XOR fold over `range n` agrees with the direct fold over the
first `n` list entries (out-of-range reads contribute the XOR-neutral
zero). -/
theorem foldl_xor_getD (l : List Nat) (n : Nat) (a : Nat) :
    (List.range n).foldl (fun c i => c ^^^ l.getD i 0) a
      = (l.take n).foldl (fun c x => c ^^^ x) a := by
  induction n with
  | zero => rfl
  | succ n ih =>
    rw [List.range_succ, List.foldl_append, ih, List.take_succ,
      List.foldl_append]
    rcases h : l[n]? with _ | x
    · simp [List.getD_eq_getElem?_getD, h]
    · simp [List.getD_eq_getElem?_getD, h]

/-- C6: decoding a 32-bit word into a `LuminanceValue` or a
`ContrastValue` yields `max = word >> 16` and `val = word & 0xff` (only
the low current-value byte contributes), and encoding packs the value
back as `(max << 16) | val`. -/
theorem c6_continuous_value_codec :
    (∀ w : Nat, w < 2 ^ 32 →
      LuminanceValue.ofU32 w = { max := w >>> 16, val := w &&& 0xff } ∧
      ContrastValue.ofU32 w = { max := w >>> 16, val := w &&& 0xff }) ∧
    (∀ mx vl : Nat, mx < 65536 → vl < 65536 →
      LuminanceValue.toU32 { max := mx, val := vl } = (mx <<< 16) ||| vl ∧
      ContrastValue.toU32 { max := mx, val := vl } = (mx <<< 16) ||| vl) := by
  constructor
  · intro w hw
    have hhi : w >>> 16 < 65536 := by
      rw [Nat.shiftRight_eq_div_pow]
      omega
    have hlo : w &&& 0xff < 65536 := by
      have := Nat.and_le_right (n := w) (m := 0xff)
      omega
    constructor <;>
      simp [LuminanceValue.ofU32, ContrastValue.ofU32,
        Nat.mod_eq_of_lt hhi, Nat.mod_eq_of_lt hlo]
  · intro mx vl hmx hvl
    constructor <;>
      simp [LuminanceValue.toU32, ContrastValue.toU32,
        Nat.mod_eq_of_lt hmx, Nat.mod_eq_of_lt hvl]

/-- Witness for C6 at the word 0x00640032 (max 100, current value 0x32:
the high current byte is discarded) and at the packed pair (100, 50). -/
theorem c6_continuous_value_codec_witness :
    LuminanceValue.ofU32 0x00640032 = { max := 0x64, val := 0x32 } ∧
    ContrastValue.toU32 { max := 0x64, val := 0x32 } = 0x00640032 := by
  constructor
  · rw [(c6_continuous_value_codec.1 0x00640032 (by decide)).1]
    decide
  · rw [(c6_continuous_value_codec.2 0x64 0x32 (by decide) (by decide)).2]
    decide

/-- C7 counterexample: the claim "every word other than 0x01 and 0x02 is
rejected" fails at the word 0x11, which the code accepts as `Finished`
because it matches only the low nibble. -/
theorem c7_new_control_value_counterexample :
    NewControlValue.ofU32 0x11 = some NewControlValue.Finished ∧
    (0x11 : Nat) ≠ 0x01 ∧ (0x11 : Nat) ≠ 0x02 := by
  decide

/-- C7 amended: decoding a read `NewControlValue` accepts exactly the
words whose low nibble `word & 0x0f` is 0x01 (`Finished`) or 0x02
(`NewControlValuesPresent`); every other word is a protocol violation
(the decode panics instead of producing a variant). -/
theorem c7_new_control_value_read :
    ∀ w : Nat,
      (NewControlValue.ofU32 w = some NewControlValue.Finished ↔ w &&& 0x0f = 0x01) ∧
      (NewControlValue.ofU32 w = some NewControlValue.NewControlValuesPresent ↔
        w &&& 0x0f = 0x02) ∧
      (NewControlValue.ofU32 w = none ↔ (w &&& 0x0f ≠ 0x01 ∧ w &&& 0x0f ≠ 0x02)) := by
  intro w
  unfold NewControlValue.ofU32
  split_ifs with h1 h2 <;> simp_all

/-- C8 counterexample: the word 0x04D9 does not decode to "AUS"
(`[0x41, 0x55, 0x53]`); it decodes to "AFY". -/
theorem c8_vendor_counterexample :
    parse_vendor 0x04D9 = [0x41, 0x46, 0x59] ∧
    parse_vendor 0x04D9 ≠ [0x41, 0x55, 0x53] := by
  decide

/-- C8 amended: the manufacturer word splits into three 5-bit fields,
each shifted by 0x40 = 'A' - 1 into a letter; the word that decodes to
the vendor string "AUS" is 0x06B3 (0x04D9 decodes to "AFY"). -/
theorem c8_vendor_decode :
    (∀ v : Nat, parse_vendor v =
      [((v >>> 10) &&& 0x1f) + 0x40,
       ((v >>> 5) &&& 0x1f) + 0x40,
       (v &&& 0x1f) + 0x40]) ∧
    parse_vendor 0x06B3 = [0x41, 0x55, 0x53] ∧
    parse_vendor 0x04D9 = [0x41, 0x46, 0x59] := by
  refine ⟨fun v => ?_, by decide, by decide⟩
  unfold parse_vendor
  rw [mod256_and_31, mod256_and_31, mod256_and_31]
  rfl

/-- C9: `Unknown` converts to byte 0x00, the same byte as `CodePage`, and
byte 0x00 converts back to `CodePage`; the byte conversion is therefore
not injective and `Unknown` never survives a round-trip, while every
named variant does, as does `Unimplemented b` for every `b` outside the
seven named code bytes. -/
theorem c9_feature_code_byte_roundtrip :
    VcpFeatureCode.Unknown.toU8 = 0x00 ∧
    VcpFeatureCode.Unknown.toU8 = VcpFeatureCode.CodePage.toU8 ∧
    VcpFeatureCode.ofU8 0x00 = VcpFeatureCode.CodePage ∧
    ¬ Function.Injective VcpFeatureCode.toU8 ∧
    (∀ v : VcpFeatureCode, VcpFeatureCode.ofU8 v.toU8 ≠ VcpFeatureCode.Unknown) ∧
    (VcpFeatureCode.ofU8 VcpFeatureCode.CodePage.toU8 = VcpFeatureCode.CodePage ∧
     VcpFeatureCode.ofU8 VcpFeatureCode.NewControlValue.toU8 = VcpFeatureCode.NewControlValue ∧
     VcpFeatureCode.ofU8 VcpFeatureCode.Luminance.toU8 = VcpFeatureCode.Luminance ∧
     VcpFeatureCode.ofU8 VcpFeatureCode.Contrast.toU8 = VcpFeatureCode.Contrast ∧
     VcpFeatureCode.ofU8 VcpFeatureCode.ActiveControl.toU8 = VcpFeatureCode.ActiveControl ∧
     VcpFeatureCode.ofU8 VcpFeatureCode.OsdLanguage.toU8 = VcpFeatureCode.OsdLanguage ∧
     VcpFeatureCode.ofU8 VcpFeatureCode.InputSelect.toU8 = VcpFeatureCode.InputSelect) ∧
    (∀ b : Nat, b ∉ ([0x00, 0x02, 0x10, 0x12, 0x52, 0x60, 0xcc] : List Nat) →
      VcpFeatureCode.ofU8 (VcpFeatureCode.Unimplemented b).toU8 =
        VcpFeatureCode.Unimplemented b) := by
  refine ⟨by decide, by decide, by decide, ?_, ?_, by decide, ?_⟩
  · intro h
    have := @h VcpFeatureCode.Unknown VcpFeatureCode.CodePage (by decide)
    exact absurd this (by decide)
  · intro v
    cases v <;> try decide
    case Unimplemented b =>
      simp only [VcpFeatureCode.toU8]
      unfold VcpFeatureCode.ofU8
      split_ifs <;> simp
  · intro b hb
    simp only [List.mem_cons, List.not_mem_nil, or_false] at hb
    push_neg at hb
    obtain ⟨h0, h2, h10, h12, h52, h60, hcc⟩ := hb
    simp only [VcpFeatureCode.toU8]
    unfold VcpFeatureCode.ofU8
    simp [h0, h2, h10, h12, h52, h60, hcc]

/-- Witness for C9: the theorem's quantified parts applied to the
concrete variant `Unimplemented 0x99` (a byte outside the named codes). -/
theorem c9_feature_code_byte_roundtrip_witness :
    VcpFeatureCode.ofU8 (VcpFeatureCode.Unimplemented 0x99).toU8 =
      VcpFeatureCode.Unimplemented 0x99 ∧
    VcpFeatureCode.ofU8 (VcpFeatureCode.Unimplemented 0x99).toU8 ≠
      VcpFeatureCode.Unknown := by
  constructor
  · exact c9_feature_code_byte_roundtrip.2.2.2.2.2.2 0x99 (by decide)
  · exact c9_feature_code_byte_roundtrip.2.2.2.2.1 (VcpFeatureCode.Unimplemented 0x99)

/-- C10: on the first pull of the change-notification iterator, an error
from the `NewControlValue` read is discarded and the iterator yields
`None` with the `started` flag unchanged — exactly the result produced
when the read succeeds with no pending changes. -/
theorem c10_queue_first_pull_error_discarded :
    ∀ (e : DdcError) (featRead : Except DdcError VcpFeatureCode)
      (valueRead : VcpFeatureCode → Except DdcError VcpFeatureValue),
      queueNext false (.error e) featRead valueRead = some (none, false) ∧
      queueNext false (.ok NewControlValue.Finished) featRead valueRead
        = some (none, false) := by
  intro e featRead valueRead
  constructor <;> rfl

/-- Variant of `foldl_xor_getD` in the normal form simp produces. -/
theorem foldl_xor_getElem (l : List Nat) (n : Nat) (a : Nat) :
    (List.range n).foldl (fun c i => c ^^^ l[i]?.getD 0) a
      = (l.take n).foldl (fun c x => c ^^^ x) a := by
  have h := foldl_xor_getD l n a
  simpa [List.getD_eq_getElem?_getD] using h

/-- C2: the computed checksum is the XOR of the virtual destination (0x50
when the target is 0x6F, else the target byte), the sender, the marked
length byte, each present optional field byte, and every payload byte;
and the transmit buffer emits the offset high byte before the low byte. -/
theorem c2_checksum_and_offset_order (m : DdcCiMessage) :
    m.compute_checksum = (checksumBytes m).foldl (fun c x => c ^^^ x) 0 ∧
    (∀ off, m.offset = some off →
      m.transmit_buffer
        = [m.sender, lengthMarker ||| m.protocol_length]
          ++ (m.opcode.map DdcOpcode.toU8).toList
          ++ (m.vcp_feature.map VcpFeatureCode.toU8).toList
          ++ [(off >>> 8) % 256, off % 256]
          ++ m.data.take m.data_length
          ++ [m.compute_checksum]) := by
  constructor
  · unfold DdcCiMessage.compute_checksum checksumBytes
    rcases m.opcode with _ | op <;> rcases m.vcp_feature with _ | f <;>
      rcases m.offset with _ | off <;>
      simp [List.foldl_append, foldl_xor_getElem, Nat.zero_xor]
  · intro off hoff
    unfold DdcCiMessage.transmit_buffer
    rcases m.opcode with _ | op <;> rcases m.vcp_feature with _ | f <;>
      simp [hoff]

/-- Witness for C2 at a `CapabilitiesRequest` with offset 0x1234: the
wire form puts the high offset byte 0x12 before the low byte 0x34 and
ends with the XOR checksum 0x69. -/
theorem c2_checksum_and_offset_order_witness :
    ((DdcCiMessage.from_opcode DdcOpcode.CapabilitiesRequest).set_offset 0x1234).compute_checksum
      = (checksumBytes
          ((DdcCiMessage.from_opcode DdcOpcode.CapabilitiesRequest).set_offset 0x1234)).foldl
          (fun c x => c ^^^ x) 0 ∧
    ((DdcCiMessage.from_opcode DdcOpcode.CapabilitiesRequest).set_offset 0x1234).transmit_buffer
      = [0x51, 0x83, 0xf3, 0x12, 0x34, 0x69] := by
  have h := c2_checksum_and_offset_order
    ((DdcCiMessage.from_opcode DdcOpcode.CapabilitiesRequest).set_offset 0x1234)
  refine ⟨h.1, ?_⟩
  rw [h.2 0x1234 rfl]
  decide

/-- C4: with a monitor that answers capability replies of payload lengths
32, 32 and 0, `read_capabilities` performs exactly three
transmit-delay(50ms)-receive exchanges, with `CapabilitiesRequest`
frames at offsets 0, 32 and 64 (each advanced by the previous reply's
data length), and hands the capability parser the concatenation of the
first two payloads. -/
theorem c4_capability_fragmentation :
    read_capabilities capDevRecv 10 =
      ([ .tx 0x37 ((DdcCiMessage.from_opcode DdcOpcode.CapabilitiesRequest).set_offset 0).transmit_buffer,
         .delay 50, .rx 0x37 (capDevRecv 0),
         .tx 0x37 ((DdcCiMessage.from_opcode DdcOpcode.CapabilitiesRequest).set_offset 32).transmit_buffer,
         .delay 50, .rx 0x37 (capDevRecv 1),
         .tx 0x37 ((DdcCiMessage.from_opcode DdcOpcode.CapabilitiesRequest).set_offset 64).transmit_buffer,
         .delay 50, .rx 0x37 (capDevRecv 2)],
       some (.ok (capPayload0 ++ capPayload1))) := by
  decide

/-- Transmit count distributes over trace concatenation. -/
theorem countTx_append (a b : List Event) :
    countTx (a ++ b) = countTx a + countTx b := by
  simp [countTx, List.filter_append]

/-- The null-reply retry loop transmits at most `retry` times. -/
theorem vcpRetryLoop_tx_le (req : DdcCiMessage) (recv : Nat → List Nat) :
    ∀ retry k reply, countTx (vcpRetryLoop req recv retry k reply).1 ≤ retry := by
  intro retry
  induction retry with
  | zero => intro k reply; simp [vcpRetryLoop, countTx]
  | succ n ih =>
    intro k reply
    unfold vcpRetryLoop
    split_ifs with h
    · rcases hres : DdcCiMessage.parse_buffer (recv k) with _ | r
      · simp [exchange, hres, countTx]
      · rcases r with e | reply2
        · simp [exchange, hres, countTx]
        · simp only [exchange, hres]
          have h1 := ih (k + 1) reply2
          have h2 : countTx [Event.tx req.addr req.transmit_buffer,
              Event.delay 40, Event.rx req.addr (recv k)] = 1 := rfl
          rw [countTx_append, h2]
          omega
    · simp [countTx]

/-- Transmit count of one exchange trace. -/
theorem countTx_exchange (req : DdcCiMessage) (ms : Nat) (recv : Nat → List Nat) (k : Nat) :
    countTx (exchange req ms recv k).1 = 1 := rfl

/-- Whatever the device answers, `get_vcp_feature` transmits at most four
times: one initial exchange and at most three null-reply retries. -/
theorem get_vcp_feature_tx_le (feature : VcpFeatureCode) (recv : Nat → List Nat) :
    countTx (get_vcp_feature feature recv).1 ≤ 4 := by
  unfold get_vcp_feature
  rcases h0 : DdcCiMessage.parse_buffer (recv 0) with _ | r
  · simp [exchange, h0, countTx]
  · rcases r with e | reply
    · simp [exchange, h0, countTx]
    · simp only [exchange, h0]
      generalize hl : vcpRetryLoop
        ((DdcCiMessage.from_opcode .VcpRequest).set_vcp_feature feature) recv 3 1 reply = lr
      obtain ⟨evs2, out⟩ := lr
      have hloop : countTx evs2 ≤ 3 := by
        have h := vcpRetryLoop_tx_le
          ((DdcCiMessage.from_opcode .VcpRequest).set_vcp_feature feature) recv 3 1 reply
        rw [hl] at h
        exact h
      have h2 : ∀ a b c, countTx [Event.tx a b, Event.delay 40, Event.rx a c] = 1 :=
        fun a b c => rfl
    
      rcases out with _ | r2
      · simp only []
        rw [countTx_append, h2]
        omega
      · rcases r2 with e | reply2
        · simp only []
          rw [countTx_append, h2]
          omega
        · simp only []
          split_ifs with hop
          · rcases hfr : parse_feature_reply reply2.get_data with _ | fr
            · simp only [hfr]
              rw [countTx_append, h2]
              omega
            · simp only [hfr]
              split_ifs with hrc
              · rw [countTx_append, h2]
                omega
              · rw [countTx_append, h2]
                omega
          · rw [countTx_append, h2]
            omega

/-- C5: `get_vcp_feature` retries at most three times after the initial
exchange (at most four transmit-delay(40ms)-receive exchanges in total,
whatever the device answers); for every device, whenever the retry phase
ends with a final reply whose opcode is not `VcpReply` (in particular
when every reply was the Null response) the operation fails with
`UnexpectedReplyCode`, and whenever it ends with a `VcpReply` whose
feature-reply payload carries result code `UnsupportedCode` it fails
with `UnsupportedVcpFeature`; concretely, an all-Null device costs
exactly four exchanges before `UnexpectedReplyCode`. -/
theorem c5_get_vcp_feature_retries :
    (∀ (feature : VcpFeatureCode) (recv : Nat → List Nat),
      countTx (get_vcp_feature feature recv).1 ≤ 4) ∧
    (∀ (feature : VcpFeatureCode) (recv : Nat → List Nat)
        (reply0 replyF : DdcCiMessage) (evsL : List Event),
      DdcCiMessage.parse_buffer (recv 0) = some (.ok reply0) →
      vcpRetryLoop ((DdcCiMessage.from_opcode .VcpRequest).set_vcp_feature feature)
          recv 3 1 reply0 = (evsL, some (.ok replyF)) →
      (replyF.get_opcode ≠ some .VcpReply →
        (get_vcp_feature feature recv).2
          = some (.error (.CommunicationError .UnexpectedReplyCode))) ∧
      (∀ (fr : FeatureReplyMessage) (rest : List Nat),
        replyF.get_opcode = some .VcpReply →
        parse_feature_reply replyF.get_data = some (fr, rest) →
        fr.result_code = .UnsupportedCode →
        (get_vcp_feature feature recv).2 = some (.error .UnsupportedVcpFeature))) ∧
    get_vcp_feature .Luminance nullDevRecv =
      ([ .tx 0x37 ((DdcCiMessage.from_opcode .VcpRequest).set_vcp_feature .Luminance).transmit_buffer,
         .delay 40, .rx 0x37 nullWire,
         .tx 0x37 ((DdcCiMessage.from_opcode .VcpRequest).set_vcp_feature .Luminance).transmit_buffer,
         .delay 40, .rx 0x37 nullWire,
         .tx 0x37 ((DdcCiMessage.from_opcode .VcpRequest).set_vcp_feature .Luminance).transmit_buffer,
         .delay 40, .rx 0x37 nullWire,
         .tx 0x37 ((DdcCiMessage.from_opcode .VcpRequest).set_vcp_feature .Luminance).transmit_buffer,
         .delay 40, .rx 0x37 nullWire],
       some (.error (.CommunicationError .UnexpectedReplyCode))) ∧
    get_vcp_feature .Luminance unsupportedDevRecv =
      ([ .tx 0x37 ((DdcCiMessage.from_opcode .VcpRequest).set_vcp_feature .Luminance).transmit_buffer,
         .delay 40, .rx 0x37 (unsupportedReply.target :: unsupportedReply.transmit_buffer)],
       some (.error .UnsupportedVcpFeature)) := by
  refine ⟨get_vcp_feature_tx_le, ?_, by decide, by decide⟩
  intro feature recv reply0 replyF evsL hp0 hloop
  constructor
  · intro hnot
    simp only [get_vcp_feature, exchange]
    rw [hp0]
    simp only []
    rw [hloop]
    simp only []
    rw [if_neg hnot]
  · intro fr rest hop hfr hrc
    simp only [get_vcp_feature, exchange]
    rw [hp0]
    simp only []
    rw [hloop]
    simp only []
    rw [if_pos hop, hfr]
    simp only []
    rw [if_pos hrc]

/-- Witness for C5: the universal conditionals applied at two concrete
devices — the all-Null device (final reply's opcode is `none`, so the
operation fails with `UnexpectedReplyCode`) and the device answering a
`VcpReply` with result code `UnsupportedCode` (the operation fails with
`UnsupportedVcpFeature`). -/
theorem c5_get_vcp_feature_retries_witness :
    (get_vcp_feature .Luminance nullDevRecv).2
      = some (.error (.CommunicationError .UnexpectedReplyCode)) ∧
    (get_vcp_feature .Luminance unsupportedDevRecv).2
      = some (.error .UnsupportedVcpFeature) := by
  constructor
  · exact (c5_get_vcp_feature_retries.2.1 .Luminance nullDevRecv
      DdcCiMessage.NullResponse DdcCiMessage.NullResponse
      [ .tx 0x37 ((DdcCiMessage.from_opcode .VcpRequest).set_vcp_feature .Luminance).transmit_buffer,
        .delay 40, .rx 0x37 nullWire,
        .tx 0x37 ((DdcCiMessage.from_opcode .VcpRequest).set_vcp_feature .Luminance).transmit_buffer,
        .delay 40, .rx 0x37 nullWire,
        .tx 0x37 ((DdcCiMessage.from_opcode .VcpRequest).set_vcp_feature .Luminance).transmit_buffer,
        .delay 40, .rx 0x37 nullWire]
      (by decide) (by decide)).1 (by decide)
  · exact (c5_get_vcp_feature_retries.2.1 .Luminance unsupportedDevRecv
      unsupportedReply unsupportedReply []
      (by decide) (by decide)).2
      { result_code := .UnsupportedCode, vcp_feature := .Luminance,
        type_code := .SetParameter, vcp_data := 0 } []
      (by decide) (by decide) (by decide)

/-- In-range drop is a cons of the indexed element. -/
theorem drop_cons (l : List Nat) (k : Nat) (h : k < l.length) :
    l.drop k = l.getD k 0 :: l.drop (k + 1) := by
  rw [List.drop_eq_getElem_cons h]
  congr 1
  rw [List.getD_eq_getElem?_getD, List.getElem?_eq_getElem h]
  rfl

/-- Dropping after dropping adds the counts. -/
theorem drop_drop (l : List Nat) (k n : Nat) :
    (l.drop k).drop n = l.drop (k + n) := by
  rw [List.drop_drop, Nat.add_comm]

/-- `takeBytes` on a drop succeeds and leaves the further drop. -/
theorem takeBytes_drop (l : List Nat) (k n : Nat) (h : k + n ≤ l.length) :
    takeBytes n (l.drop k) = some ((l.drop k).take n, l.drop (k + n)) := by
  unfold takeBytes
  rw [if_pos (by simp; omega), drop_drop]

/-- Wrapping byte sum over the first `n` entries agrees with the plain
sum modulo 256. -/
theorem sumBytes_eq (l : List Nat) : ∀ n : Nat, sumBytes l n = (l.take n).sum % 256 := by
  intro n
  induction n with
  | zero => rfl
  | succ n ih =>
    unfold sumBytes at ih ⊢
    rw [List.range_succ, List.foldl_append, ih, List.take_succ, List.sum_append]
    rcases h : l[n]? with _ | x
    · simp [List.getD_eq_getElem?_getD, h, Nat.mod_add_mod]
    · simp [List.getD_eq_getElem?_getD, h, Nat.mod_add_mod]

/-- Take-then-index equals plain index for in-range positions. -/
theorem getD_take (l : List Nat) (n j : Nat) (h : j < n) :
    (l.take n).getD j 0 = l.getD j 0 := by
  rw [List.getD_eq_getElem?_getD, List.getD_eq_getElem?_getD, List.getElem?_take]
  simp [h]

/-- Drop-then-index shifts the position. -/
theorem getD_drop (l : List Nat) (k j : Nat) :
    (l.drop k).getD j 0 = l.getD (k + j) 0 := by
  rw [List.getD_eq_getElem?_getD, List.getD_eq_getElem?_getD, List.getElem?_drop]

/-- Every 18-byte slice parses as one descriptor and consumes exactly 18
bytes. -/
theorem parse_descriptor_drop (l : List Nat) (k : Nat) (h : k + 18 ≤ l.length) :
    ∃ d, parse_descriptor (l.drop k) = some (d, l.drop (k + 18)) := by
  unfold parse_descriptor
  rw [takeBytes_drop l k 3 (by omega)]
  simp only []
  by_cases hz : ((l.drop k).take 3).getD 0 0 = 0 ∧ ((l.drop k).take 3).getD 1 0 = 0 ∧
      ((l.drop k).take 3).getD 2 0 = 0
  · rw [if_pos hz]
    have hk : l.getD k 0 = 0 := by
      have := hz.1
      rwa [getD_take _ _ _ (by omega), getD_drop] at this
    have hcons0 : l.drop k = 0 :: l.drop (k + 1) := by
      rw [drop_cons l k (by omega), hk]
    rw [hcons0]
    simp only [le_u8]
    norm_num
    unfold descriptorTail
    rw [← hcons0, takeBytes_drop l k 5 (by omega)]
    simp only []
    norm_num
    rw [takeBytes_drop l (k + 5) 13 (by omega)]
    simp only []
    exact ⟨_, by rw [show k + 5 + 13 = k + 18 by omega]⟩
  · rw [if_neg hz]
    unfold parse_detailed_timing
    have h2 := drop_cons l (k + 1) (by omega)
    rw [drop_cons l k (by omega), h2]
    simp only [le_u16]
    rw [drop_cons l (k + 2) (by omega), drop_cons l (k + 3) (by omega),
      drop_cons l (k + 4) (by omega), drop_cons l (k + 5) (by omega),
      drop_cons l (k + 6) (by omega), drop_cons l (k + 7) (by omega),
      drop_cons l (k + 8) (by omega), drop_cons l (k + 9) (by omega),
      drop_cons l (k + 10) (by omega), drop_cons l (k + 11) (by omega),
      drop_cons l (k + 12) (by omega), drop_cons l (k + 13) (by omega),
      drop_cons l (k + 14) (by omega), drop_cons l (k + 15) (by omega),
      drop_cons l (k + 16) (by omega), drop_cons l (k + 17) (by omega)]
    simp only []
    exact ⟨_, by rw [show k + 17 + 1 = k + 18 by omega]⟩

theorem parse_edid_structure (l : List Nat) (hlen : l.length = 128)
    (h8 : l.take 8 = edidPreamble) :
    (l.sum % 256 ≠ 0 → parse_edid l = .error .InvalidChecksum) ∧
      (l.sum % 256 = 0 → ∃ e : Edid, parse_edid l = .ok e) := by
  have ht8 : takeBytes 8 l = some (l.take 8, l.drop 8) := by
    have h := takeBytes_drop l 0 8 (by omega)
    simpa using h
  unfold parse_edid parse_header
  rw [ht8]
  simp only []
  rw [h8]
  have hpre : edidPreamble = [0x00, 0xFF, 0xFF, 0xFF, 0xFF, 0xFF, 0xFF, 0x00] := by decide
  rw [if_pos hpre]
  rw [drop_cons l 8 (by omega), drop_cons l 9 (by omega)]
  simp only [be_u16]
  rw [drop_cons l 10 (by omega), drop_cons l 11 (by omega)]
  simp only [le_u16]
  rw [drop_cons l 12 (by omega), drop_cons l 13 (by omega),
    drop_cons l 14 (by omega), drop_cons l 15 (by omega)]
  simp only [le_u32]
  rw [drop_cons l 16 (by omega), drop_cons l 17 (by omega),
    drop_cons l 18 (by omega), drop_cons l 19 (by omega)]
  unfold parse_display
  rw [drop_cons l 20 (by omega), drop_cons l 21 (by omega),
    drop_cons l 22 (by omega), drop_cons l 23 (by omega),
    drop_cons l 24 (by omega)]
  simp only []
  rw [show (24 : Nat) + 1 = 25 from rfl]
  unfold parse_chromaticity
  rw [takeBytes_drop l 25 10 (by omega)]
  simp only []
  unfold parse_established_timing
  rw [takeBytes_drop l 35 3 (by omega)]
  simp only []
  unfold parse_standard_timing
  rw [takeBytes_drop l 38 16 (by omega)]
  simp only []
  obtain ⟨d0, hd0⟩ := parse_descriptor_drop l 54 (by omega)
  obtain ⟨d1, hd1⟩ := parse_descriptor_drop l 72 (by omega)
  obtain ⟨d2, hd2⟩ := parse_descriptor_drop l 90 (by omega)
  obtain ⟨d3, hd3⟩ := parse_descriptor_drop l 108 (by omega)
  norm_num at hd0 hd1 hd2 hd3
  rw [show (38 : Nat) + 16 = 54 from rfl]
  simp only [countDescriptors, hd0, hd1, hd2, hd3]
  rw [drop_cons l 126 (by omega), drop_cons l 127 (by omega)]
  simp only []
  rw [hlen]
  have hsum : (sumBytes l 127 + l.getD 127 0) % 256 = l.sum % 256 := by
    rw [sumBytes_eq, Nat.mod_add_mod]
    congr 1
    conv_rhs => rw [← List.take_append_drop 127 l]
    rw [List.sum_append]
    congr 1
    rw [drop_cons l 127 (by omega), List.drop_eq_nil_of_le (by omega)]
    simp
  constructor
  · intro hnz
    rw [if_neg (show ¬ (sumBytes l (128 - 1) + l.getD 127 0) % 256 = 0 by
      rw [show (128 : Nat) - 1 = 127 from rfl, hsum]; exact hnz)]
  · intro hz
    exact ⟨_, by
      rw [if_pos (show (sumBytes l (128 - 1) + l.getD 127 0) % 256 = 0 by
        rw [show (128 : Nat) - 1 = 127 from rfl, hsum]; exact hz)]⟩

set_option maxRecDepth 4000 in
/-- C3 counterexample: a structurally well-formed 129-byte buffer that
`parse_edid` accepts although its first 128 bytes sum to 255 mod 256 —
for inputs longer than one block the source's sum loop runs over
`len - 1` bytes and so counts byte 127 twice while including none of the
claimed invariance. -/
theorem c3_edid_checksum_counterexample :
    c3Input.length ≥ 128 ∧
    (parse_edid c3Input).isOk = true ∧
    (c3Input.take 128).sum % 256 ≠ 0 := by
  decide

/-- C3 amended: for every input buffer of exactly 128 bytes (one EDID
block), `parse_edid` succeeds only when the unsigned sum of the 128
bytes is 0 mod 256, and when the sum rule fails on an otherwise
well-formed block it returns `InvalidChecksum`. -/
theorem c3_edid_checksum_mod256 (l : List Nat) (hlen : l.length = 128) :
    (∀ e : Edid, parse_edid l = .ok e → l.sum % 256 = 0) ∧
    (l.take 8 = edidPreamble → l.sum % 256 ≠ 0 →
      parse_edid l = .error .InvalidChecksum) := by
  have hcase := fun h8 => parse_edid_structure l hlen h8
  constructor
  · intro e hok
    by_cases h8 : l.take 8 = edidPreamble
    · by_contra hnz
      rw [(hcase h8).1 hnz] at hok
      cases hok
    · have hfail : parse_edid l = .error .NomParserError := by
        have ht8 : takeBytes 8 l = some (l.take 8, l.drop 8) := by
          have h := takeBytes_drop l 0 8 (by omega)
          simpa using h
        have hpre : edidPreamble = [0x00, 0xFF, 0xFF, 0xFF, 0xFF, 0xFF, 0xFF, 0x00] := by
          decide
        unfold parse_edid parse_header
        rw [ht8]
        simp only []
        rw [if_neg (by rw [← hpre]; exact h8)]
      rw [hfail] at hok
      cases hok
  · intro h8 hnz
    exact (hcase h8).1 hnz

set_option maxRecDepth 4000 in
/-- Witness for C3 amended at a concrete 128-byte block with a wrong
checksum byte: the parse reports `InvalidChecksum`. -/
theorem c3_edid_checksum_mod256_witness :
    c3WitnessInput.length = 128 ∧
    c3WitnessInput.take 8 = edidPreamble ∧
    c3WitnessInput.sum % 256 ≠ 0 ∧
    parse_edid c3WitnessInput = .error .InvalidChecksum := by
  refine ⟨by decide, by decide, by decide, ?_⟩
  exact (c3_edid_checksum_mod256 c3WitnessInput (by decide)).2 (by decide) (by decide)

/-- The data-filling loop on an input that starts with exactly the bytes
to store: it stores them and leaves the remainder untouched. -/
theorem fillData_exact (xs : List Nat) : ∀ (j : Nat) (rest arr : List Nat),
    j + xs.length ≤ arr.length →
    DdcCiMessage.fillData xs.length j (xs ++ rest) arr
      = some (.ok (arrWrite arr j xs, rest)) := by
  induction xs with
  | nil => intro j rest arr h; rfl
  | cons x xs ih =>
    intro j rest arr h
    simp only [List.length_cons] at h
    simp only [List.length_cons, List.cons_append, DdcCiMessage.fillData]
    rw [if_pos (by omega)]
    rw [ih (j + 1) rest (arr.set j x) (by rw [List.length_set]; omega)]
    rfl

/-- Sequential writes are a take-splice-drop. -/
theorem arrWrite_eq (xs : List Nat) : ∀ (arr : List Nat) (j : Nat),
    j + xs.length ≤ arr.length →
    arrWrite arr j xs = arr.take j ++ xs ++ arr.drop (j + xs.length) := by
  induction xs with
  | nil => intro arr j h; simp [arrWrite]
  | cons x xs ih =>
    intro arr j h
    simp only [List.length_cons] at h
    have hj : j < arr.length := by omega
    have hlt : (arr.take j).length = j := by
      rw [List.length_take]
      omega
    rw [arrWrite, ih (arr.set j x) (j + 1) (by rw [List.length_set]; omega),
      List.set_eq_take_cons_drop x hj]
    have htake : (arr.take j ++ x :: arr.drop (j + 1)).take (j + 1)
        = arr.take j ++ [x] := by
      rw [List.take_append_eq_append_take, hlt, List.take_take]
      have h1 : min (j + 1) j = j := by omega
      have h2 : j + 1 - j = 1 := by omega
      rw [h1, h2]
      rfl
    have hdrop : (arr.take j ++ x :: arr.drop (j + 1)).drop (j + 1 + xs.length)
        = arr.drop (j + (xs.length + 1)) := by
      rw [List.drop_append_eq_append_drop, List.drop_eq_nil_of_le (by omega),
        List.nil_append, hlt, show j + 1 + xs.length - j = xs.length + 1 by omega,
        List.drop_succ_cons, drop_drop,
        show j + 1 + xs.length = j + (xs.length + 1) by omega]
    rw [htake, hdrop]
    simp

/-- Filling the fresh zero array of `parse_buffer` with the payload bytes
of a message whose array is zero beyond the payload reconstructs exactly
that array. -/
theorem fillData_payload (dat : List Nat) (dl : Nat) (rest : List Nat)
    (hlen : dat.length = 36) (hdl : dl ≤ 36)
    (hzero : dat.drop dl = List.replicate (36 - dl) 0) :
    DdcCiMessage.fillData dl 0 (dat.take dl ++ rest) (List.replicate 36 0)
      = some (.ok (dat, rest)) := by
  have hxs : (dat.take dl).length = dl := by
    rw [List.length_take]
    omega
  have h1 := fillData_exact (dat.take dl) 0 rest (List.replicate 36 0)
    (by simp [hxs]; omega)
  rw [hxs] at h1
  rw [h1]
  have h2 := arrWrite_eq (dat.take dl) (List.replicate 36 0) 0
    (by simp [hxs]; omega)
  rw [h2, hxs]
  simp only [List.take_zero, List.nil_append, Nat.zero_add, List.drop_replicate]
  rw [← hzero, List.take_append_drop]

/-- C1 amended: parsing the encoded wire form (transmit buffer prefixed
with the target byte) reconstructs the message, for every message whose
payload fits in 32 bytes with the data array zero beyond it, whose
optional fields are the ones its opcode's layout predicates call for,
and whose opcode and feature bytes decode back to the same variants
(`ValidMessage`); in particular the Null response round-trips (see the
witness). -/
theorem c1_message_roundtrip (m : DdcCiMessage) (hv : ValidMessage m) :
    DdcCiMessage.parse_buffer (m.target :: m.transmit_buffer) = some (.ok m) := by
  obtain ⟨t, s, o, vf, off, dl, dat⟩ := m
  obtain ⟨⟨hlen36, hdl32, hoffb, hcons⟩, hzero, hopB, hvfB⟩ := hv
  simp only [] at hlen36 hdl32 hoffb hcons hzero hopB hvfB
  rcases o with _ | op
  · obtain ⟨hvf, hoff, hdl0⟩ := hcons
    subst hvf hoff hdl0
    have hdat : dat = List.replicate 36 0 := by simpa using hzero
    subst hdat
    have htb : DdcCiMessage.transmit_buffer ⟨t, s, none, none, none, 0, List.replicate 36 0⟩
        = [s, 0x80,
           DdcCiMessage.compute_checksum ⟨t, s, none, none, none, 0, List.replicate 36 0⟩] := by
      simp [DdcCiMessage.transmit_buffer, DdcCiMessage.protocol_length, lengthMarker]
    rw [htb]
    simp only [DdcCiMessage.parse_buffer, lengthMarker]
    have h87 : (128 : Nat) &&& 127 = 0 := by decide
    have h88 : (128 : Nat) &&& 128 = 128 := by decide
    rw [h88, h87]
    norm_num [DDC_MAX_DATA_FRAGMENT_LENGTH_WITH_EXTRA, DDC_MAX_DATA_FRAGMENT_LENGTH]
  · obtain ⟨hvfi, hoffi⟩ := hcons
    obtain ⟨hopRT, hopDef⟩ := hopB op rfl
    rcases vf with _ | f <;> rcases off with _ | offv
    · -- neither feature nor offset
      have hb : op.has_vcp_feature = some false := by
        rcases hx : op.has_vcp_feature with _ | b
        · rw [hx] at hopDef
          simp at hopDef
        · rcases b
          · rfl
          · exfalso
            have h := hvfi.mpr hx
            simp at h
      have hof : op.has_offset = false := by simpa using hoffi.symm
      have hpl : DdcCiMessage.protocol_length
          ⟨t, s, some op, none, none, dl, dat⟩ = dl + 1 := by
        simp [DdcCiMessage.protocol_length]
        omega
      have htb : DdcCiMessage.transmit_buffer ⟨t, s, some op, none, none, dl, dat⟩
          = s :: (0x80 ||| (dl + 1)) :: op.toU8 ::
            (dat.take dl ++ [DdcCiMessage.compute_checksum
              ⟨t, s, some op, none, none, dl, dat⟩]) := by
        simp [DdcCiMessage.transmit_buffer, hpl, lengthMarker]
      rw [htb]
      simp only [DdcCiMessage.parse_buffer, lengthMarker]
      rw [if_pos (marker_or_and_marker (dl + 1))]
      rw [marker_or_and_low (dl + 1) (by omega)]
      rw [if_pos (by omega : 0 < dl + 1)]
      rw [hopRT, hb]
      simp only []
      rw [if_neg (by simp : ¬ (false = true ∧ dl + 1 - 1 ≥ 1))]
      simp only []
      rw [hof]
      rw [if_neg (by simp : ¬ (false = true ∧ dl + 1 - 1 ≥ 2))]
      simp only []
      rw [show dl + 1 - 1 = dl from by omega]
      rw [show DDC_MAX_DATA_FRAGMENT_LENGTH_WITH_EXTRA = 36 from rfl]
      rw [fillData_payload dat dl _ hlen36 (by omega) hzero]
      simp
    · -- offset only
      have hb : op.has_vcp_feature = some false := by
        rcases hx : op.has_vcp_feature with _ | b
        · rw [hx] at hopDef
          simp at hopDef
        · rcases b
          · rfl
          · exfalso
            have h := hvfi.mpr hx
            simp at h
      have hof : op.has_offset = true := by simpa using hoffi.symm
      have hofb : offv < 65536 := hoffb offv rfl
      have hpl : DdcCiMessage.protocol_length
          ⟨t, s, some op, none, some offv, dl, dat⟩ = dl + 3 := by
        simp [DdcCiMessage.protocol_length]
        omega
      have htb : DdcCiMessage.transmit_buffer ⟨t, s, some op, none, some offv, dl, dat⟩
          = s :: (0x80 ||| (dl + 3)) :: op.toU8 ::
            ((offv >>> 8) % 256) :: (offv % 256) ::
            (dat.take dl ++ [DdcCiMessage.compute_checksum
              ⟨t, s, some op, none, some offv, dl, dat⟩]) := by
        simp [DdcCiMessage.transmit_buffer, hpl, lengthMarker]
      rw [htb]
      simp only [DdcCiMessage.parse_buffer, lengthMarker]
      rw [if_pos (marker_or_and_marker (dl + 3))]
      rw [marker_or_and_low (dl + 3) (by omega)]
      rw [if_pos (by omega : 0 < dl + 3)]
      rw [hopRT, hb]
      simp only []
      rw [if_neg (by simp : ¬ (false = true ∧ dl + 3 - 1 ≥ 1))]
      simp only []
      rw [if_pos (⟨hof, by omega⟩ : op.has_offset = true ∧ dl + 3 - 1 ≥ 2)]
      simp only []
      rw [offset_recombine offv hofb]
      rw [show dl + 3 - 1 - 2 = dl from by omega]
      rw [show DDC_MAX_DATA_FRAGMENT_LENGTH_WITH_EXTRA = 36 from rfl]
      rw [fillData_payload dat dl _ hlen36 (by omega) hzero]
      simp
    · -- feature only
      have hb : op.has_vcp_feature = some true := hvfi.mp rfl
      have hof : op.has_offset = false := by simpa using hoffi.symm
      have hfRT : VcpFeatureCode.ofU8 f.toU8 = f := hvfB f rfl
      have hpl : DdcCiMessage.protocol_length
          ⟨t, s, some op, some f, none, dl, dat⟩ = dl + 2 := by
        simp [DdcCiMessage.protocol_length]
        omega
      have htb : DdcCiMessage.transmit_buffer ⟨t, s, some op, some f, none, dl, dat⟩
          = s :: (0x80 ||| (dl + 2)) :: op.toU8 :: f.toU8 ::
            (dat.take dl ++ [DdcCiMessage.compute_checksum
              ⟨t, s, some op, some f, none, dl, dat⟩]) := by
        simp [DdcCiMessage.transmit_buffer, hpl, lengthMarker]
      rw [htb]
      simp only [DdcCiMessage.parse_buffer, lengthMarker]
      rw [if_pos (marker_or_and_marker (dl + 2))]
      rw [marker_or_and_low (dl + 2) (by omega)]
      rw [if_pos (by omega : 0 < dl + 2)]
      rw [hopRT, hb]
      simp only []
      rw [if_pos (⟨trivial, by omega⟩ : True ∧ dl + 2 - 1 ≥ 1)]
      simp only []
      rw [hfRT]
      rw [hof]
      rw [if_neg (by simp : ¬ (false = true ∧ dl + 2 - 1 - 1 ≥ 2))]
      simp only []
      rw [show dl + 2 - 1 - 1 = dl from by omega]
      rw [show DDC_MAX_DATA_FRAGMENT_LENGTH_WITH_EXTRA = 36 from rfl]
      rw [fillData_payload dat dl _ hlen36 (by omega) hzero]
      simp
    · -- feature and offset both present
      have hb : op.has_vcp_feature = some true := hvfi.mp rfl
      have hof : op.has_offset = true := by simpa using hoffi.symm
      have hofb : offv < 65536 := hoffb offv rfl
      have hfRT : VcpFeatureCode.ofU8 f.toU8 = f := hvfB f rfl
      have hpl : DdcCiMessage.protocol_length
          ⟨t, s, some op, some f, some offv, dl, dat⟩ = dl + 4 := by
        simp [DdcCiMessage.protocol_length]
        omega
      have htb : DdcCiMessage.transmit_buffer ⟨t, s, some op, some f, some offv, dl, dat⟩
          = s :: (0x80 ||| (dl + 4)) :: op.toU8 :: f.toU8 ::
            ((offv >>> 8) % 256) :: (offv % 256) ::
            (dat.take dl ++ [DdcCiMessage.compute_checksum
              ⟨t, s, some op, some f, some offv, dl, dat⟩]) := by
        simp [DdcCiMessage.transmit_buffer, hpl, lengthMarker]
      rw [htb]
      simp only [DdcCiMessage.parse_buffer, lengthMarker]
      rw [if_pos (marker_or_and_marker (dl + 4))]
      rw [marker_or_and_low (dl + 4) (by omega)]
      rw [if_pos (by omega : 0 < dl + 4)]
      rw [hopRT, hb]
      simp only []
      rw [if_pos (⟨trivial, by omega⟩ : True ∧ dl + 4 - 1 ≥ 1)]
      simp only []
      rw [hfRT]
      rw [if_pos (⟨hof, by omega⟩ : op.has_offset = true ∧ dl + 4 - 1 - 1 ≥ 2)]
      simp only []
      rw [offset_recombine offv hofb]
      rw [show dl + 4 - 1 - 1 - 2 = dl from by omega]
      rw [show DDC_MAX_DATA_FRAGMENT_LENGTH_WITH_EXTRA = 36 from rfl]
      rw [fillData_payload dat dl _ hlen36 (by omega) hzero]
      simp

/-- C1 counterexample: a message that is valid in the claim's own terms —
payload within bounds and fields consistent with its opcode — but does
not round-trip: the opcode `Unknown(0x01)` encodes to the `VcpRequest`
byte, so the parse reconstructs a different message. -/
theorem c1_message_roundtrip_counterexample :
    ClaimValid aliasMsg ∧
    DdcCiMessage.parse_buffer (aliasMsg.target :: aliasMsg.transmit_buffer)
      ≠ some (.ok aliasMsg) := by
  constructor
  · refine ⟨by decide, by decide, fun off h => by simp [aliasMsg] at h, ?_⟩
    simp only [aliasMsg]
    exact ⟨by decide, by decide⟩
  · decide

/-- Witness for C1 amended: the Null response is valid and round-trips,
comparing equal to itself. -/
theorem c1_message_roundtrip_witness :
    ValidMessage DdcCiMessage.NullResponse ∧
    DdcCiMessage.parse_buffer (DdcCiMessage.NullResponse.target ::
        DdcCiMessage.NullResponse.transmit_buffer)
      = some (.ok DdcCiMessage.NullResponse) := by
  have hv : ValidMessage DdcCiMessage.NullResponse := by
    refine ⟨⟨by decide, by decide,
      fun off h => by simp [DdcCiMessage.NullResponse] at h, ?_⟩, by decide,
      fun op h => by simp [DdcCiMessage.NullResponse] at h,
      fun f h => by simp [DdcCiMessage.NullResponse] at h⟩
    simp only [DdcCiMessage.NullResponse]
    exact ⟨trivial, trivial, trivial⟩
  exact ⟨hv, c1_message_roundtrip _ hv⟩
